import Mathlib

/-!
# clang-rename: `USRLocFinder.cpp`

A shallow embedding of `clang::rename::getLocationsOfUSR` and of the visitor
`USRLocFindingASTVisitor` behind it, followed by the properties of the
finder that the specification states.

* The syntax tree is a closed tagged variant: one constructor of `NodeKind`
  for each node class that has a handler in the visitor, and `other` for
  every node class that has none.  A node carries exactly the values its
  handler reads through the getters of the clang classes; the fields keep
  the names of those getters.
* The visitor is explicit state passing: a handler takes the visitor and
  returns the `bool` of the C++ handler together with the visitor it leaves
  behind.  `push_back` is `++ [_]`.
* What the finder asks of code outside `USRLocFinder.cpp` (the USR of a
  declaration, the spelling location of a location, the text of the token at
  a location) is a parameter, `Frontend`; nothing is assumed about it.
* `assert` is an error branch (`Except.error`).
-/

namespace clang
namespace rename

/-! ## Data model -/

/-- A source position, by its raw encoding (`SourceLocation::ID`). -/
structure SourceLocation where
  ID : Nat
  deriving DecidableEq, Repr

/-- The location `Offset` characters further on
(`SourceLocation::getLocWithOffset`: the raw encoding plus the offset). -/
def SourceLocation.getLocWithOffset (L : SourceLocation) (Offset : Nat) : SourceLocation :=
  ⟨L.ID + Offset⟩

/-- The identity of a declaration: what a non-null `const Decl *` stands for.
A nullable pointer is an `Option DeclPtr`. -/
abbrev DeclPtr := Nat

/-- The answers of the code around the finder, taken as parameters. -/
structure Frontend where
  /-- The function `getUSRForDecl` declared in `USRFinder.h`, on non-null
  declarations. -/
  getUSRForDecl : DeclPtr → String
  /-- The function `SourceManager::getSpellingLoc`. -/
  getSpellingLoc : SourceLocation → SourceLocation
  /-- The text of the token at a location:
  `Lexer::getSourceText(CharSourceRange::getTokenRange(L), SM, LangOpts)`. -/
  getSourceText : SourceLocation → String

/-- `StringRef::startswith`. -/
def StringRef.startswith (S Pre : String) : Bool :=
  Pre.data.isPrefixOf S.data

/-- What the visitor reads of a `NamedDecl`: the declaration itself (for its
USR) and `getLocation()`. -/
structure NamedDecl where
  self : DeclPtr
  getLocation : SourceLocation
  deriving DecidableEq, Repr

/-- A `VarDecl`: a named declaration with
`getType()->getPointeeCXXRecordDecl()` and `getTypeSpecStartLoc()`. -/
structure VarDecl extends NamedDecl where
  getPointeeCXXRecordDecl : Option DeclPtr
  getTypeSpecStartLoc : SourceLocation
  deriving DecidableEq, Repr

/-- One entry of `CXXConstructorDecl::inits()`. -/
structure CXXCtorInitializer where
  getSourceOrder : Int
  getAnyMember : Option DeclPtr
  getSourceLocation : SourceLocation
  deriving DecidableEq, Repr

/-- A `CXXConstructorDecl`. -/
structure CXXConstructorDecl extends NamedDecl where
  inits : List CXXCtorInitializer
  getLocStart : SourceLocation
  deriving DecidableEq, Repr

/-- A `CXXDestructorDecl`. -/
structure CXXDestructorDecl extends NamedDecl where
  getParent : DeclPtr
  isThisDeclarationADefinition : Bool
  getLocStart : SourceLocation
  deriving DecidableEq, Repr

/-- A `NestedNameSpecifierLoc`: `null` is the empty (false) one; a segment
has `getNestedNameSpecifier()->getAsNamespace()`, `getLocalBeginLoc()` and
`getPrefix()`, the qualifier to its left. -/
inductive NestedNameSpecifierLoc where
  | null
  | segment (getAsNamespace : Option DeclPtr) (getLocalBeginLoc : SourceLocation)
      (getPrefix : NestedNameSpecifierLoc)
  deriving DecidableEq, Repr

/-- A `DeclRefExpr`. -/
structure DeclRefExpr where
  getFoundDecl : DeclPtr
  getQualifierLoc : NestedNameSpecifierLoc
  getLocation : SourceLocation
  deriving DecidableEq, Repr

/-- A `MemberExpr`; `getFoundDecl` is `getFoundDecl().getDecl()`. -/
structure MemberExpr where
  getFoundDecl : DeclPtr
  getMemberLoc : SourceLocation
  deriving DecidableEq, Repr

/-- A `CXXConstructExpr`. -/
structure CXXConstructExpr where
  getConstructor : DeclPtr
  getLocation : SourceLocation
  deriving DecidableEq, Repr

/-- A `CXXNamedCastExpr`: `getType()->getPointeeCXXRecordDecl()`,
`getType()->getAsCXXRecordDecl()` and
`getTypeInfoAsWritten()->getTypeLoc().getBeginLoc()`. -/
structure CXXNamedCastExpr where
  getPointeeCXXRecordDecl : Option DeclPtr
  getAsCXXRecordDecl : Option DeclPtr
  getTypeBeginLoc : SourceLocation
  deriving DecidableEq, Repr

/-- The node classes the visitor tells apart. -/
inductive NodeKind where
  /-- A node of a class for which the visitor has no handler. -/
  | other
  /-- A named declaration that is no variable, constructor or destructor. -/
  | namedDecl (D : NamedDecl)
  | varDecl (D : VarDecl)
  | cxxConstructorDecl (D : CXXConstructorDecl)
  | cxxDestructorDecl (D : CXXDestructorDecl)
  | declRefExpr (E : DeclRefExpr)
  | memberExpr (E : MemberExpr)
  | cxxConstructExpr (E : CXXConstructExpr)
  | cxxStaticCastExpr (E : CXXNamedCastExpr)
  | cxxDynamicCastExpr (E : CXXNamedCastExpr)
  | cxxReinterpretCastExpr (E : CXXNamedCastExpr)
  | cxxConstCastExpr (E : CXXNamedCastExpr)
  deriving DecidableEq, Repr

/-- A node of the syntax tree with the nodes below it, in the order in which
`RecursiveASTVisitor` traverses them. -/
inductive Node where
  | mk (kind : NodeKind) (children : List Node)

/-- The failure of an `assert`. -/
inductive AssertionFailure where
  | failed (condition : String)
  deriving DecidableEq, Repr

/-! ## The visitor -/

/-- The data members of `USRLocFindingASTVisitor`. -/
structure USRLocFindingASTVisitor where
  USR : String
  PrevName : String
  LocationsFound : List SourceLocation
  deriving DecidableEq, Repr

/-- `LocationsFound.push_back(L)`. -/
def USRLocFindingASTVisitor.push_back (V : USRLocFindingASTVisitor) (L : SourceLocation) :
    USRLocFindingASTVisitor :=
  { V with LocationsFound := V.LocationsFound ++ [L] }

/-- The handler `VisitNamedDecl`. -/
def VisitNamedDecl (F : Frontend) (V : USRLocFindingASTVisitor) (Decl : NamedDecl) :
    Bool × USRLocFindingASTVisitor :=
  if F.getUSRForDecl Decl.self = V.USR then
    (true, V.push_back Decl.getLocation)
  else
    (true, V)

/-- The handler `VisitVarDecl`. -/
def VisitVarDecl (F : Frontend) (V : USRLocFindingASTVisitor) (Decl : VarDecl) :
    Bool × USRLocFindingASTVisitor :=
  match Decl.getPointeeCXXRecordDecl with
  | some RecordDecl =>
    if F.getUSRForDecl RecordDecl = V.USR then
      (true, V.push_back Decl.getTypeSpecStartLoc)
    else
      (true, V)
  | none => (true, V)

/-- One turn of the loop over `ConstructorDecl->inits()` in
`VisitCXXConstructorDecl`. -/
def VisitCXXConstructorDecl.initializer (F : Frontend) (V : USRLocFindingASTVisitor)
    (Initializer : CXXCtorInitializer) : USRLocFindingASTVisitor :=
  if Initializer.getSourceOrder = -1 then
    V
  else
    match Initializer.getAnyMember with
    | some FieldDecl =>
      if F.getUSRForDecl FieldDecl = V.USR then
        let Location := Initializer.getSourceLocation
        let TokenName := F.getSourceText Location
        if TokenName = V.PrevName then
          V.push_back Initializer.getSourceLocation
        else
          V
      else
        V
    | none => V

/-- The handler `VisitCXXConstructorDecl`. -/
def VisitCXXConstructorDecl (F : Frontend) (V : USRLocFindingASTVisitor)
    (ConstructorDecl : CXXConstructorDecl) : Bool × USRLocFindingASTVisitor :=
  let V1 := ConstructorDecl.inits.foldl (VisitCXXConstructorDecl.initializer F) V
  if F.getUSRForDecl ConstructorDecl.self = V1.USR then
    (true, V1.push_back ConstructorDecl.getLocStart)
  else
    (true, V1)

/-- The handler `VisitCXXDestructorDecl`. -/
def VisitCXXDestructorDecl (F : Frontend) (V : USRLocFindingASTVisitor)
    (DestructorDecl : CXXDestructorDecl) :
    Except AssertionFailure (Bool × USRLocFindingASTVisitor) :=
  if F.getUSRForDecl DestructorDecl.getParent = V.USR then
    let Location := DestructorDecl.getLocation
    let TokenName := F.getSourceText Location
    if StringRef.startswith TokenName "~" then
      let V1 := V.push_back (Location.getLocWithOffset 1)
      if DestructorDecl.isThisDeclarationADefinition then
        .ok (true, V1.push_back DestructorDecl.getLocStart)
      else
        .ok (true, V1)
    else
      .error (.failed "TokenName.startswith(\"~\")")
  else
    .ok (true, V)

/-- The private member `checkNestedNameSpecifierLoc`: the `while` loop runs
along `getPrefix()` until the qualifier is empty. -/
def checkNestedNameSpecifierLoc (F : Frontend) (V : USRLocFindingASTVisitor) :
    NestedNameSpecifierLoc → USRLocFindingASTVisitor
  | .null => V
  | .segment Decl LocalBeginLoc Prefix =>
    match Decl with
    | some D =>
      if F.getUSRForDecl D = V.USR then
        checkNestedNameSpecifierLoc F (V.push_back LocalBeginLoc) Prefix
      else
        checkNestedNameSpecifierLoc F V Prefix
    | none => checkNestedNameSpecifierLoc F V Prefix

/-- The handler `VisitDeclRefExpr`. -/
def VisitDeclRefExpr (F : Frontend) (V : USRLocFindingASTVisitor) (Expr : DeclRefExpr) :
    Bool × USRLocFindingASTVisitor :=
  let Decl := Expr.getFoundDecl
  let V1 := checkNestedNameSpecifierLoc F V Expr.getQualifierLoc
  if F.getUSRForDecl Decl = V1.USR then
    let Location := F.getSpellingLoc Expr.getLocation
    (true, V1.push_back Location)
  else
    (true, V1)

/-- The handler `VisitMemberExpr`. -/
def VisitMemberExpr (F : Frontend) (V : USRLocFindingASTVisitor) (Expr : MemberExpr) :
    Bool × USRLocFindingASTVisitor :=
  let Decl := Expr.getFoundDecl
  if F.getUSRForDecl Decl = V.USR then
    let Location := F.getSpellingLoc Expr.getMemberLoc
    (true, V.push_back Location)
  else
    (true, V)

/-- The handler `VisitCXXConstructExpr`. -/
def VisitCXXConstructExpr (F : Frontend) (V : USRLocFindingASTVisitor)
    (Expr : CXXConstructExpr) : Bool × USRLocFindingASTVisitor :=
  let Decl := Expr.getConstructor
  if F.getUSRForDecl Decl = V.USR then
    (true, V.push_back Expr.getLocation)
  else
    (true, V)

/-- The private member `handleCXXNamedCastExpr`. -/
def handleCXXNamedCastExpr (F : Frontend) (V : USRLocFindingASTVisitor)
    (Expr : CXXNamedCastExpr) : Bool × USRLocFindingASTVisitor :=
  let Decl : Option DeclPtr :=
    match Expr.getPointeeCXXRecordDecl with
    | some D => some D
    | none => Expr.getAsCXXRecordDecl
  match Decl with
  | some D =>
    if F.getUSRForDecl D = V.USR then
      let Location := Expr.getTypeBeginLoc
      (true, V.push_back Location)
    else
      (true, V)
  | none => (true, V)

/-- The handler `VisitCXXStaticCastExpr`. -/
def VisitCXXStaticCastExpr (F : Frontend) (V : USRLocFindingASTVisitor)
    (Expr : CXXNamedCastExpr) : Bool × USRLocFindingASTVisitor :=
  handleCXXNamedCastExpr F V Expr

/-- The handler `VisitCXXDynamicCastExpr`. -/
def VisitCXXDynamicCastExpr (F : Frontend) (V : USRLocFindingASTVisitor)
    (Expr : CXXNamedCastExpr) : Bool × USRLocFindingASTVisitor :=
  handleCXXNamedCastExpr F V Expr

/-- The handler `VisitCXXReinterpretCastExpr`. -/
def VisitCXXReinterpretCastExpr (F : Frontend) (V : USRLocFindingASTVisitor)
    (Expr : CXXNamedCastExpr) : Bool × USRLocFindingASTVisitor :=
  handleCXXNamedCastExpr F V Expr

/-- The handler `VisitCXXConstCastExpr`. -/
def VisitCXXConstCastExpr (F : Frontend) (V : USRLocFindingASTVisitor)
    (Expr : CXXNamedCastExpr) : Bool × USRLocFindingASTVisitor :=
  handleCXXNamedCastExpr F V Expr

/-- The accessor `getLocationsFound`. -/
def USRLocFindingASTVisitor.getLocationsFound (V : USRLocFindingASTVisitor) :
    List SourceLocation :=
  V.LocationsFound

/-! ## The traversal (`RecursiveASTVisitor`) -/

/-- Run `Second` unless `First` returned `false`: the
`if (!WalkUpFromBase(D)) return false; return VisitDerived(D);` of
`RecursiveASTVisitor`. -/
def andThen (First : Bool × USRLocFindingASTVisitor)
    (Second : USRLocFindingASTVisitor → Except AssertionFailure (Bool × USRLocFindingASTVisitor)) :
    Except AssertionFailure (Bool × USRLocFindingASTVisitor) :=
  match First with
  | (true, V1) => Second V1
  | (false, V1) => .ok (false, V1)

/-- The `WalkUpFrom...` chain of a node: the handlers of the visitor that
apply to the node's class, base class first. -/
def WalkUpFrom (F : Frontend) (V : USRLocFindingASTVisitor) :
    NodeKind → Except AssertionFailure (Bool × USRLocFindingASTVisitor)
  | .other => .ok (true, V)
  | .namedDecl D => .ok (VisitNamedDecl F V D)
  | .varDecl D =>
    andThen (VisitNamedDecl F V D.toNamedDecl) fun V1 => .ok (VisitVarDecl F V1 D)
  | .cxxConstructorDecl D =>
    andThen (VisitNamedDecl F V D.toNamedDecl) fun V1 => .ok (VisitCXXConstructorDecl F V1 D)
  | .cxxDestructorDecl D =>
    andThen (VisitNamedDecl F V D.toNamedDecl) fun V1 => VisitCXXDestructorDecl F V1 D
  | .declRefExpr E => .ok (VisitDeclRefExpr F V E)
  | .memberExpr E => .ok (VisitMemberExpr F V E)
  | .cxxConstructExpr E => .ok (VisitCXXConstructExpr F V E)
  | .cxxStaticCastExpr E => .ok (VisitCXXStaticCastExpr F V E)
  | .cxxDynamicCastExpr E => .ok (VisitCXXDynamicCastExpr F V E)
  | .cxxReinterpretCastExpr E => .ok (VisitCXXReinterpretCastExpr F V E)
  | .cxxConstCastExpr E => .ok (VisitCXXConstCastExpr F V E)

mutual
/-- The member `TraverseDecl` (and `TraverseStmt`) of `RecursiveASTVisitor`,
pre-order: the handlers of the node, then the nodes below it; a handler that
returns `false` ends the traversal. -/
def TraverseDecl (F : Frontend) (V : USRLocFindingASTVisitor) :
    Node → Except AssertionFailure (Bool × USRLocFindingASTVisitor)
  | .mk kind children =>
    match WalkUpFrom F V kind with
    | .error e => .error e
    | .ok (false, V1) => .ok (false, V1)
    | .ok (true, V1) => TraverseChildren F V1 children
/-- The loop of `TraverseDecl` over the nodes below a node. -/
def TraverseChildren (F : Frontend) (V : USRLocFindingASTVisitor) :
    List Node → Except AssertionFailure (Bool × USRLocFindingASTVisitor)
  | [] => .ok (true, V)
  | child :: rest =>
    match TraverseDecl F V child with
    | .error e => .error e
    | .ok (false, V1) => .ok (false, V1)
    | .ok (true, V1) => TraverseChildren F V1 rest
end

/-- The function `getLocationsOfUSR`. -/
def getLocationsOfUSR (F : Frontend) (USR PrevName : String) (Decl : Node) :
    Except AssertionFailure (List SourceLocation) :=
  let Visitor : USRLocFindingASTVisitor := { USR := USR, PrevName := PrevName, LocationsFound := [] }
  match TraverseDecl F Visitor Decl with
  | .error e => .error e
  | .ok (_, Visitor1) => .ok Visitor1.getLocationsFound

/-! ## Vocabulary for the statements -/

/-- The node kinds of a tree in the order of the traversal: a node before the
nodes below it, these from first to last. -/
def Node.preorder : Node → List NodeKind
  | .mk kind children => kind :: preorderOfChildren children
where
  /-- The pre-order of a list of sibling subtrees. -/
  preorderOfChildren : List Node → List NodeKind
    | [] => []
    | child :: rest => child.preorder ++ preorderOfChildren rest

/-- The visitor with further locations appended to its accumulator. -/
def USRLocFindingASTVisitor.append (V : USRLocFindingASTVisitor) (Ls : List SourceLocation) :
    USRLocFindingASTVisitor :=
  { V with LocationsFound := V.LocationsFound ++ Ls }

/-- The value with which the only `assert` of the file fails. -/
def destructorAssertion : AssertionFailure :=
  .failed "TokenName.startswith(\"~\")"

/-- The condition under which the `assert` of `VisitCXXDestructorDecl` does
not fail at a node: the node is no destructor, or its owning class has
another USR than the target, or the token at its location starts with `~`. -/
def AssertionHolds (F : Frontend) (USR : String) : NodeKind → Prop
  | .cxxDestructorDecl D =>
    F.getUSRForDecl D.getParent = USR →
      StringRef.startswith (F.getSourceText D.getLocation) "~" = true
  | _ => True

instance (F : Frontend) (USR : String) : (k : NodeKind) → Decidable (AssertionHolds F USR k)
  | .cxxDestructorDecl D =>
    inferInstanceAs (Decidable (F.getUSRForDecl D.getParent = USR →
      StringRef.startswith (F.getSourceText D.getLocation) "~" = true))
  | .other => isTrue trivial
  | .namedDecl _ => isTrue trivial
  | .varDecl _ => isTrue trivial
  | .cxxConstructorDecl _ => isTrue trivial
  | .declRefExpr _ => isTrue trivial
  | .memberExpr _ => isTrue trivial
  | .cxxConstructExpr _ => isTrue trivial
  | .cxxStaticCastExpr _ => isTrue trivial
  | .cxxDynamicCastExpr _ => isTrue trivial
  | .cxxReinterpretCastExpr _ => isTrue trivial
  | .cxxConstCastExpr _ => isTrue trivial

/-- The locations `VisitNamedDecl` appends. -/
def namedDeclLocations (F : Frontend) (USR : String) (D : NamedDecl) : List SourceLocation :=
  if F.getUSRForDecl D.self = USR then [D.getLocation] else []

/-- The locations `VisitVarDecl` appends. -/
def varDeclLocations (F : Frontend) (USR : String) (D : VarDecl) : List SourceLocation :=
  match D.getPointeeCXXRecordDecl with
  | some R => if F.getUSRForDecl R = USR then [D.getTypeSpecStartLoc] else []
  | none => []

/-- An initializer is explicit and initializes a field with the given USR. -/
def initializesField (F : Frontend) (USR : String) (I : CXXCtorInitializer) : Prop :=
  I.getSourceOrder ≠ -1 ∧ I.getAnyMember.map F.getUSRForDecl = some USR

/-- The three conditions of the constructor-initializer rule. -/
def initializerMatches (F : Frontend) (USR PrevName : String) (I : CXXCtorInitializer) : Prop :=
  initializesField F USR I ∧ F.getSourceText I.getSourceLocation = PrevName

instance (F : Frontend) (USR : String) (I : CXXCtorInitializer) :
    Decidable (initializesField F USR I) :=
  inferInstanceAs (Decidable (_ ∧ _))

instance (F : Frontend) (USR PrevName : String) (I : CXXCtorInitializer) :
    Decidable (initializerMatches F USR PrevName I) :=
  inferInstanceAs (Decidable (_ ∧ _))

/-- The locations the loop over the initializers appends. -/
def initializerLocations (F : Frontend) (USR PrevName : String)
    (inits : List CXXCtorInitializer) : List SourceLocation :=
  (inits.filter fun I => decide (initializerMatches F USR PrevName I)).map
    fun I => I.getSourceLocation

/-- The location `VisitCXXConstructorDecl` appends after its loop. -/
def constructorLocations (F : Frontend) (USR : String) (D : CXXConstructorDecl) :
    List SourceLocation :=
  if F.getUSRForDecl D.self = USR then [D.getLocStart] else []

/-- The locations `VisitCXXDestructorDecl` appends when its assertion holds. -/
def destructorLocations (F : Frontend) (USR : String) (D : CXXDestructorDecl) :
    List SourceLocation :=
  if F.getUSRForDecl D.getParent = USR then
    D.getLocation.getLocWithOffset 1 ::
      (if D.isThisDeclarationADefinition = true then [D.getLocStart] else [])
  else []

/-- The locations `checkNestedNameSpecifierLoc` appends. -/
def qualifierLocations (F : Frontend) (USR : String) :
    NestedNameSpecifierLoc → List SourceLocation
  | .null => []
  | .segment (some D) LocalBeginLoc Pre =>
    (if F.getUSRForDecl D = USR then [LocalBeginLoc] else []) ++ qualifierLocations F USR Pre
  | .segment none _ Pre => qualifierLocations F USR Pre

/-- The location `VisitDeclRefExpr` appends for the reference itself. -/
def declRefLocations (F : Frontend) (USR : String) (E : DeclRefExpr) : List SourceLocation :=
  if F.getUSRForDecl E.getFoundDecl = USR then [F.getSpellingLoc E.getLocation] else []

/-- The location `VisitMemberExpr` appends. -/
def memberLocations (F : Frontend) (USR : String) (E : MemberExpr) : List SourceLocation :=
  if F.getUSRForDecl E.getFoundDecl = USR then [F.getSpellingLoc E.getMemberLoc] else []

/-- The location `VisitCXXConstructExpr` appends. -/
def constructExprLocations (F : Frontend) (USR : String) (E : CXXConstructExpr) :
    List SourceLocation :=
  if F.getUSRForDecl E.getConstructor = USR then [E.getLocation] else []

/-- The record a named cast is matched on: the pointee record of its type if
there is one, else the record the type denotes. -/
def castRecord (E : CXXNamedCastExpr) : Option DeclPtr :=
  match E.getPointeeCXXRecordDecl with
  | some D => some D
  | none => E.getAsCXXRecordDecl

/-- The location `handleCXXNamedCastExpr` appends. -/
def namedCastLocations (F : Frontend) (USR : String) (E : CXXNamedCastExpr) :
    List SourceLocation :=
  match castRecord E with
  | some D => if F.getUSRForDecl D = USR then [E.getTypeBeginLoc] else []
  | none => []

/-- The locations all handlers of one node append, in order. -/
def locationsAt (F : Frontend) (USR PrevName : String) : NodeKind → List SourceLocation
  | .other => []
  | .namedDecl D => namedDeclLocations F USR D
  | .varDecl D => namedDeclLocations F USR D.toNamedDecl ++ varDeclLocations F USR D
  | .cxxConstructorDecl D =>
    namedDeclLocations F USR D.toNamedDecl ++
      (initializerLocations F USR PrevName D.inits ++ constructorLocations F USR D)
  | .cxxDestructorDecl D => namedDeclLocations F USR D.toNamedDecl ++ destructorLocations F USR D
  | .declRefExpr E => qualifierLocations F USR E.getQualifierLoc ++ declRefLocations F USR E
  | .memberExpr E => memberLocations F USR E
  | .cxxConstructExpr E => constructExprLocations F USR E
  | .cxxStaticCastExpr E => namedCastLocations F USR E
  | .cxxDynamicCastExpr E => namedCastLocations F USR E
  | .cxxReinterpretCastExpr E => namedCastLocations F USR E
  | .cxxConstCastExpr E => namedCastLocations F USR E

/-- The namespaces of the segments of a qualifier, by USR. -/
def qualifierNamespaces (F : Frontend) : NestedNameSpecifierLoc → List String
  | .null => []
  | .segment (some D) _ Pre => F.getUSRForDecl D :: qualifierNamespaces F Pre
  | .segment none _ Pre => qualifierNamespaces F Pre

/-- The USRs a node has for the finder: of a named declaration, of a
variable's pointee record, of the field of an explicit constructor
initializer, of a constructor, of a destructor's owning class, of the
resolved declaration of a name reference or member access, of the namespaces
of a qualifier, of the invoked constructor of a constructor call and of the
record of a named cast. -/
def consultedUSRs (F : Frontend) : NodeKind → List String
  | .other => []
  | .namedDecl D => [F.getUSRForDecl D.self]
  | .varDecl D =>
    F.getUSRForDecl D.self :: (D.getPointeeCXXRecordDecl.map F.getUSRForDecl).toList
  | .cxxConstructorDecl D =>
    F.getUSRForDecl D.self ::
      D.inits.filterMap fun I =>
        if I.getSourceOrder = -1 then none else I.getAnyMember.map F.getUSRForDecl
  | .cxxDestructorDecl D => [F.getUSRForDecl D.self, F.getUSRForDecl D.getParent]
  | .declRefExpr E => F.getUSRForDecl E.getFoundDecl :: qualifierNamespaces F E.getQualifierLoc
  | .memberExpr E => [F.getUSRForDecl E.getFoundDecl]
  | .cxxConstructExpr E => [F.getUSRForDecl E.getConstructor]
  | .cxxStaticCastExpr E => ((castRecord E).map F.getUSRForDecl).toList
  | .cxxDynamicCastExpr E => ((castRecord E).map F.getUSRForDecl).toList
  | .cxxReinterpretCastExpr E => ((castRecord E).map F.getUSRForDecl).toList
  | .cxxConstCastExpr E => ((castRecord E).map F.getUSRForDecl).toList

/-- The member initializers of a node: those of a constructor, none of any
other node. -/
def NodeKind.inits : NodeKind → List CXXCtorInitializer
  | .cxxConstructorDecl D => D.inits
  | _ => []

/-- What the handlers of one node contribute: the accumulator they leave
behind when they start from the empty one (nothing if they fail). -/
def contributions (F : Frontend) (USR PrevName : String) (k : NodeKind) : List SourceLocation :=
  match WalkUpFrom F { USR := USR, PrevName := PrevName, LocationsFound := [] } k with
  | .ok (_, V) => V.LocationsFound
  | .error _ => []

/-- The relation `Subtree s t`: the tree `s` is `t` or lies below a node of
`t`. -/
inductive Node.Subtree : Node → Node → Prop where
  | refl (t : Node) : Node.Subtree t t
  | under (s c : Node) (kind : NodeKind) (children : List Node) :
    c ∈ children → Node.Subtree s c → Node.Subtree s (.mk kind children)

/-- The segments of a qualifier in the order of the loop of
`checkNestedNameSpecifierLoc`: first the qualifier's own (last written,
innermost) segment, then those of `getPrefix()`, outwards. A segment is given
by `getAsNamespace()` and `getLocalBeginLoc()`. -/
def NestedNameSpecifierLoc.segments :
    NestedNameSpecifierLoc → List (Option DeclPtr × SourceLocation)
  | .null => []
  | .segment Decl LocalBeginLoc Pre => (Decl, LocalBeginLoc) :: Pre.segments

/-- A segment denotes a namespace with the given USR. -/
def segmentMatches (F : Frontend) (USR : String) (S : Option DeclPtr × SourceLocation) : Bool :=
  match S.1 with
  | some D => decide (F.getUSRForDecl D = USR)
  | none => false

/-- The visitor `V1` extends `V`: same target USR, same previous name, and
the accumulator of `V` is a prefix of that of `V1`. -/
def Extends (V V1 : USRLocFindingASTVisitor) : Prop :=
  V1.USR = V.USR ∧ V1.PrevName = V.PrevName ∧ V.LocationsFound <+: V1.LocationsFound

/-- The named declaration in a node, if the node is one. -/
def NodeKind.asNamedDecl : NodeKind → Option NamedDecl
  | .namedDecl D => some D
  | .varDecl D => some D.toNamedDecl
  | .cxxConstructorDecl D => some D.toNamedDecl
  | .cxxDestructorDecl D => some D.toNamedDecl
  | _ => none

/-! ## The test `test/clang-rename/Variable.cpp`

The tree of the test file, with the byte offsets of the file as locations.
Declarations: 0 `A`, 1 `A::Foo`, 2 the global `Foo`, 3 `Qux`, 4 `Baz`,
5 `fun`, 6 the unnamed struct, 7 its field `Foo`, 8 `b`, 9 the local `Foo`,
10 the block-scope `extern int Foo`. -/

namespace Variable

/-- The USRs of the declarations of the test; the `extern` re-declaration
has the USR of the global `Foo`. -/
def USRs : DeclPtr → String
  | 0 => "c:@N@A"
  | 1 => "c:@N@A@Foo"
  | 2 => "c:@Foo"
  | 3 => "c:@Qux"
  | 4 => "c:@Baz"
  | 5 => "c:@F@fun#"
  | 6 => "c:Variable.cpp@F@fun#@Sa"
  | 7 => "c:Variable.cpp@F@fun#@Sa@FI@Foo"
  | 8 => "c:Variable.cpp@F@fun#@b"
  | 9 => "c:Variable.cpp@F@fun#@Foo"
  | 10 => "c:@Foo"
  | _ => ""

/-- The front end of the test: no macros, so each location is its own
spelling location, and the token at a location is not asked for. -/
def frontend : Frontend where
  getUSRForDecl := USRs
  getSpellingLoc := fun L => L
  getSourceText := fun _ => ""

/-- A reference to a declaration by an unqualified name. -/
def ref (D : DeclPtr) (At : Nat) : Node :=
  .mk .other [.mk (.declRefExpr ⟨D, .null, ⟨At⟩⟩) []]

/-- The expression `A::Foo`, with `A` and `Foo` at the given offsets. -/
def refAFoo (AtA AtFoo : Nat) : Node :=
  .mk (.declRefExpr ⟨1, .segment (some 0) ⟨AtA⟩ .null, ⟨AtFoo⟩⟩) []

/-- The expression `b.Foo`. -/
def bFoo (AtB AtFoo : Nat) : Node :=
  .mk .other [.mk (.memberExpr ⟨7, ⟨AtFoo⟩⟩) [.mk (.declRefExpr ⟨8, .null, ⟨AtB⟩⟩) []]]

/-- A variable of type `int`. -/
def intVar (D : DeclPtr) (AtInt AtName : Nat) (init : List Node) : Node :=
  .mk (.varDecl ⟨⟨D, ⟨AtName⟩⟩, none, ⟨AtInt⟩⟩) init

/-- Lines 17 to 22, the inner block. -/
def innerBlock : Node :=
  .mk .other [
    .mk .other [intVar 10 520 524 []],
    .mk .other [.mk (.declRefExpr ⟨4, .null, ⟨563⟩⟩) [], ref 10 569],
    .mk .other [.mk (.declRefExpr ⟨10, .null, ⟨608⟩⟩) [],
      .mk .other [.mk .other [refAFoo 614 617], ref 4 623]],
    .mk .other [refAFoo 662 665, bFoo 671 673]]

/-- Lines 11 to 24, the function `fun`. -/
def funDecl : Node :=
  .mk (.namedDecl ⟨5, ⟨334⟩⟩) [
    .mk .other [
      .mk .other [
        .mk (.namedDecl ⟨6, ⟨344⟩⟩) [.mk (.namedDecl ⟨7, ⟨361⟩⟩) []],
        .mk (.varDecl ⟨⟨8, ⟨400⟩⟩, none, ⟨344⟩⟩) [.mk .other [.mk .other []]]],
      .mk .other [intVar 9 413 417 [.mk .other []]],
      .mk .other [.mk (.declRefExpr ⟨4, .null, ⟨462⟩⟩) [], ref 9 468],
      innerBlock,
      .mk .other [.mk (.declRefExpr ⟨9, .null, ⟨714⟩⟩) [], bFoo 720 722]]]

/-- The translation unit. -/
def tree : Node :=
  .mk .other [
    .mk (.namedDecl ⟨0, ⟨140⟩⟩) [intVar 1 144 148 []],
    intVar 2 189 193 [],
    intVar 3 232 236 [ref 2 242],
    intVar 4 281 285 [.mk .other [refAFoo 291 294]],
    funDecl]

/-- Lines 8, 9, 12 to 16, 18, 19 and 23 of the test: every `Foo` of the file
that is not `A::Foo`. -/
def otherFoos : Node :=
  .mk .other [
    intVar 2 189 193 [],
    intVar 3 232 236 [ref 2 242],
    .mk (.namedDecl ⟨5, ⟨334⟩⟩) [
      .mk .other [
        .mk .other [
          .mk (.namedDecl ⟨6, ⟨344⟩⟩) [.mk (.namedDecl ⟨7, ⟨361⟩⟩) []],
          .mk (.varDecl ⟨⟨8, ⟨400⟩⟩, none, ⟨344⟩⟩) [.mk .other [.mk .other []]]],
        .mk .other [intVar 9 413 417 [.mk .other []]],
        .mk .other [.mk (.declRefExpr ⟨4, .null, ⟨462⟩⟩) [], ref 9 468],
        .mk .other [
          .mk .other [intVar 10 520 524 []],
          .mk .other [.mk (.declRefExpr ⟨4, .null, ⟨563⟩⟩) [], ref 10 569]],
        .mk .other [.mk (.declRefExpr ⟨9, .null, ⟨714⟩⟩) [], bFoo 720 722]]]]

/-- Lines 8 and 18 of the test: the global `Foo` and its `extern`
re-declaration in the inner block. -/
def redeclarations : Node :=
  .mk .other [intVar 2 189 193 [], .mk .other [intVar 10 520 524 []]]

end Variable

/-! ## Further example trees

`InClass` is the tree of

    struct Foo { int Bar; Foo() : Bar(0) {} ~Foo() {} };

with the declarations 0 `Foo`, 1 `Foo::Bar`, 2 the constructor and 3 the
destructor. `OutOfLine` is the tree of

    struct Foo { Foo(); ~Foo(); }; Foo::Foo() {} Foo::~Foo() {}

with the declarations 0 `Foo`, 1 and 3 the constructor (in the class and
outside it), 2 and 4 the destructor. `Macro` is the tree of

    struct Foo { DTOR(Foo) };        // #define DTOR(X) ~X();

where the `~` of the destructor comes out of the body of a macro, a range
of which `Lexer::getSourceText` returns the empty text. Locations are byte
offsets into the line shown. -/

namespace InClass

/-- The USRs of the declarations of the class. -/
def USRs : DeclPtr → String
  | 0 => "c:@S@Foo"
  | 1 => "c:@S@Foo@FI@Bar"
  | 2 => "c:@S@Foo@F@Foo#"
  | 3 => "c:@S@Foo@F@~Foo#"
  | _ => ""

/-- The tokens of the line by offset (those at which a declaration or an
initializer is located). -/
def tokens : SourceLocation → String
  | ⟨7⟩ => "Foo"
  | ⟨17⟩ => "Bar"
  | ⟨22⟩ => "Foo"
  | ⟨30⟩ => "Bar"
  | ⟨40⟩ => "~"
  | _ => ""

/-- The front end of the example. -/
def frontend : Frontend where
  getUSRForDecl := USRs
  getSpellingLoc := fun L => L
  getSourceText := tokens

/-- The initializer `Bar(0)`. -/
def initBar : CXXCtorInitializer :=
  ⟨0, some 1, ⟨30⟩⟩

/-- The constructor `Foo() : Bar(0) {}`. -/
def constructor : CXXConstructorDecl :=
  ⟨⟨2, ⟨22⟩⟩, [initBar], ⟨22⟩⟩

/-- The destructor `~Foo() {}`, defined in the class: it starts at its `~`. -/
def destructor : CXXDestructorDecl :=
  ⟨⟨3, ⟨40⟩⟩, 0, true, ⟨40⟩⟩

/-- The translation unit. -/
def tree : Node :=
  .mk .other [
    .mk (.namedDecl ⟨0, ⟨7⟩⟩) [
      .mk (.namedDecl ⟨1, ⟨17⟩⟩) [],
      .mk (.cxxConstructorDecl constructor) [.mk .other [], .mk .other []],
      .mk (.cxxDestructorDecl destructor) [.mk .other []]]]

end InClass

namespace OutOfLine

/-- The USRs of the declarations; a definition outside the class has the USR
of its declaration in the class. -/
def USRs : DeclPtr → String
  | 0 => "c:@S@Foo"
  | 1 => "c:@S@Foo@F@Foo#"
  | 2 => "c:@S@Foo@F@~Foo#"
  | 3 => "c:@S@Foo@F@Foo#"
  | 4 => "c:@S@Foo@F@~Foo#"
  | _ => ""

/-- The tokens of the line by offset. -/
def tokens : SourceLocation → String
  | ⟨7⟩ => "Foo"
  | ⟨13⟩ => "Foo"
  | ⟨20⟩ => "~"
  | ⟨31⟩ => "Foo"
  | ⟨36⟩ => "Foo"
  | ⟨45⟩ => "Foo"
  | ⟨50⟩ => "~"
  | _ => ""

/-- The front end of the example. -/
def frontend : Frontend where
  getUSRForDecl := USRs
  getSpellingLoc := fun L => L
  getSourceText := tokens

/-- The definition `Foo::Foo() {}`: it starts at the class name (offset 31)
and is named at offset 36. -/
def constructorDefinition : CXXConstructorDecl :=
  ⟨⟨3, ⟨36⟩⟩, [], ⟨31⟩⟩

/-- The declaration `~Foo();` in the class. -/
def destructorDeclaration : CXXDestructorDecl :=
  ⟨⟨2, ⟨20⟩⟩, 0, false, ⟨20⟩⟩

/-- The definition `Foo::~Foo() {}`: it starts at the class name (offset 45)
and its `~` is at offset 50. -/
def destructorDefinition : CXXDestructorDecl :=
  ⟨⟨4, ⟨50⟩⟩, 0, true, ⟨45⟩⟩

/-- The translation unit. -/
def tree : Node :=
  .mk .other [
    .mk (.namedDecl ⟨0, ⟨7⟩⟩) [
      .mk (.cxxConstructorDecl ⟨⟨1, ⟨13⟩⟩, [], ⟨13⟩⟩) [],
      .mk (.cxxDestructorDecl destructorDeclaration) []],
    .mk (.cxxConstructorDecl constructorDefinition) [.mk .other []],
    .mk (.cxxDestructorDecl destructorDefinition) [.mk .other []]]

end OutOfLine

namespace Macro

/-- The USRs of the class and of its destructor. -/
def USRs : DeclPtr → String
  | 0 => "c:@S@Foo"
  | 1 => "c:@S@Foo@F@~Foo#"
  | _ => ""

/-- The front end of the example: no text is to be had for a token inside
the body of a macro. -/
def frontend : Frontend where
  getUSRForDecl := USRs
  getSpellingLoc := fun L => L
  getSourceText := fun _ => ""

/-- The translation unit. -/
def tree : Node :=
  .mk .other [
    .mk (.namedDecl ⟨0, ⟨7⟩⟩) [
      .mk (.cxxDestructorDecl ⟨⟨1, ⟨13⟩⟩, 0, false, ⟨13⟩⟩) []]]

end Macro

namespace Nested

/-! The tree of

    namespace A { namespace B { int x; } } int y = A::B::x;

with the declarations 0 `A`, 1 `B`, 2 `x` and 3 `y`. -/

/-- The USRs of the declarations. -/
def USRs : DeclPtr → String
  | 0 => "c:@N@A"
  | 1 => "c:@N@A@N@B"
  | 2 => "c:@N@A@N@B@x"
  | 3 => "c:@y"
  | _ => ""

/-- The front end of the example. -/
def frontend : Frontend where
  getUSRForDecl := USRs
  getSpellingLoc := fun L => L
  getSourceText := fun _ => ""

/-- A front end for which both namespaces have one USR, as when no USR can
be generated for either. -/
def sameUSR : Frontend where
  getUSRForDecl := fun D => if D = 0 ∨ D = 1 then "c:@N" else USRs D
  getSpellingLoc := fun L => L
  getSourceText := fun _ => ""

/-- The qualifier `A::B::`: its own segment is `B::` (offset 50), its
prefix is `A::` (offset 47). -/
def qualifier : NestedNameSpecifierLoc :=
  .segment (some 1) ⟨50⟩ (.segment (some 0) ⟨47⟩ .null)

/-- The expression `A::B::x`. -/
def reference : DeclRefExpr :=
  ⟨2, qualifier, ⟨53⟩⟩

/-- The translation unit. -/
def tree : Node :=
  .mk .other [
    .mk (.namedDecl ⟨0, ⟨10⟩⟩) [
      .mk (.namedDecl ⟨1, ⟨24⟩⟩) [.mk (.varDecl ⟨⟨2, ⟨32⟩⟩, none, ⟨28⟩⟩) []]],
    .mk (.varDecl ⟨⟨3, ⟨43⟩⟩, none, ⟨39⟩⟩) [.mk .other [.mk (.declRefExpr reference) []]]]

end Nested

namespace Casts

/-! The tree of

    struct Foo { Foo(); }; Foo *P = new Foo(); Foo *Q = static_cast<Foo *>(P);

with the declarations 0 `Foo`, 1 its constructor, 2 `P` and 3 `Q`. -/

/-- The USRs of the declarations. -/
def USRs : DeclPtr → String
  | 0 => "c:@S@Foo"
  | 1 => "c:@S@Foo@F@Foo#"
  | 2 => "c:@P"
  | 3 => "c:@Q"
  | _ => ""

/-- The front end of the example. -/
def frontend : Frontend where
  getUSRForDecl := USRs
  getSpellingLoc := fun L => L
  getSourceText := fun _ => ""

/-- The variable `Foo *P`: its type is a pointer to `Foo`, written at
offset 23; its name is at offset 28. -/
def varP : VarDecl :=
  ⟨⟨2, ⟨28⟩⟩, some 0, ⟨23⟩⟩

/-- The constructor call of `new Foo()`, located at the type name. -/
def newFoo : CXXConstructExpr :=
  ⟨1, ⟨36⟩⟩

/-- The cast `static_cast<Foo *>(P)`: its type is a pointer to `Foo`, and
the type is written at offset 64. -/
def cast : CXXNamedCastExpr :=
  ⟨some 0, none, ⟨64⟩⟩

/-- The subtree of the declaration of `Q`. -/
def declQ : Node :=
  .mk (.varDecl ⟨⟨3, ⟨48⟩⟩, some 0, ⟨43⟩⟩) [
    .mk (.cxxStaticCastExpr cast) [.mk .other [.mk (.declRefExpr ⟨2, .null, ⟨71⟩⟩) []]]]

/-- The translation unit. -/
def tree : Node :=
  .mk .other [
    .mk (.namedDecl ⟨0, ⟨7⟩⟩) [.mk (.cxxConstructorDecl ⟨⟨1, ⟨13⟩⟩, [], ⟨13⟩⟩) []],
    .mk (.varDecl varP) [.mk .other [.mk (.cxxConstructExpr newFoo) []]],
    declQ]

end Casts

/-! ## The handlers in closed form -/

@[simp] theorem append_USR (V : USRLocFindingASTVisitor) (Ls : List SourceLocation) :
    (V.append Ls).USR = V.USR := rfl

@[simp] theorem append_PrevName (V : USRLocFindingASTVisitor) (Ls : List SourceLocation) :
    (V.append Ls).PrevName = V.PrevName := rfl

@[simp] theorem append_LocationsFound (V : USRLocFindingASTVisitor) (Ls : List SourceLocation) :
    (V.append Ls).LocationsFound = V.LocationsFound ++ Ls := rfl

@[simp] theorem append_nil (V : USRLocFindingASTVisitor) : V.append [] = V := by
  simp [USRLocFindingASTVisitor.append]

@[simp] theorem append_append (V : USRLocFindingASTVisitor) (Ls Ms : List SourceLocation) :
    (V.append Ls).append Ms = V.append (Ls ++ Ms) := by
  simp [USRLocFindingASTVisitor.append]

theorem push_back_eq_append (V : USRLocFindingASTVisitor) (L : SourceLocation) :
    V.push_back L = V.append [L] := rfl

theorem VisitNamedDecl_eq (F : Frontend) (V : USRLocFindingASTVisitor) (D : NamedDecl) :
    VisitNamedDecl F V D = (true, V.append (namedDeclLocations F V.USR D)) := by
  by_cases h : F.getUSRForDecl D.self = V.USR <;>
    simp [VisitNamedDecl, namedDeclLocations, h, push_back_eq_append]

theorem VisitVarDecl_eq (F : Frontend) (V : USRLocFindingASTVisitor) (D : VarDecl) :
    VisitVarDecl F V D = (true, V.append (varDeclLocations F V.USR D)) := by
  unfold VisitVarDecl varDeclLocations
  cases D.getPointeeCXXRecordDecl with
  | none => simp
  | some R => by_cases h : F.getUSRForDecl R = V.USR <;> simp [h, push_back_eq_append]

theorem initializer_eq (F : Frontend) (V : USRLocFindingASTVisitor) (I : CXXCtorInitializer) :
    VisitCXXConstructorDecl.initializer F V I =
      V.append (initializerLocations F V.USR V.PrevName [I]) := by
  unfold VisitCXXConstructorDecl.initializer initializerLocations initializerMatches
    initializesField
  by_cases h1 : I.getSourceOrder = -1
  · simp [h1]
  · cases h2 : I.getAnyMember with
    | none => simp [h1, h2]
    | some Field =>
      by_cases h3 : F.getUSRForDecl Field = V.USR
      · by_cases h4 : F.getSourceText I.getSourceLocation = V.PrevName
        · simp [h1, h2, h3, h4, push_back_eq_append]
        · simp [h1, h2, h3, h4]
      · simp [h1, h2, h3]

theorem initializers_eq (F : Frontend) (inits : List CXXCtorInitializer) :
    ∀ V : USRLocFindingASTVisitor,
      inits.foldl (VisitCXXConstructorDecl.initializer F) V =
        V.append (initializerLocations F V.USR V.PrevName inits) := by
  induction inits with
  | nil => intro V; simp [initializerLocations]
  | cons I rest ih =>
    intro V
    rw [List.foldl_cons, initializer_eq, ih]
    simp only [append_USR, append_PrevName, append_append]
    congr 1
    simp only [initializerLocations, ← List.map_append, ← List.filter_append]
    rfl

theorem VisitCXXConstructorDecl_eq (F : Frontend) (V : USRLocFindingASTVisitor)
    (D : CXXConstructorDecl) :
    VisitCXXConstructorDecl F V D =
      (true, V.append (initializerLocations F V.USR V.PrevName D.inits ++
        constructorLocations F V.USR D)) := by
  unfold VisitCXXConstructorDecl constructorLocations
  simp only [initializers_eq, append_USR]
  by_cases h : F.getUSRForDecl D.self = V.USR <;> simp [h, push_back_eq_append]

theorem VisitCXXDestructorDecl_eq (F : Frontend) (V : USRLocFindingASTVisitor)
    (D : CXXDestructorDecl) (h : AssertionHolds F V.USR (.cxxDestructorDecl D)) :
    VisitCXXDestructorDecl F V D = .ok (true, V.append (destructorLocations F V.USR D)) := by
  unfold VisitCXXDestructorDecl destructorLocations
  by_cases h1 : F.getUSRForDecl D.getParent = V.USR
  · have h2 := h h1
    cases h3 : D.isThisDeclarationADefinition <;> simp [h1, h2, push_back_eq_append]
  · simp [h1]

theorem VisitCXXDestructorDecl_error (F : Frontend) (V : USRLocFindingASTVisitor)
    (D : CXXDestructorDecl) (h : ¬ AssertionHolds F V.USR (.cxxDestructorDecl D)) :
    VisitCXXDestructorDecl F V D = .error destructorAssertion := by
  unfold AssertionHolds at h
  unfold VisitCXXDestructorDecl destructorAssertion
  by_cases h1 : F.getUSRForDecl D.getParent = V.USR
  · have h2 : ¬ StringRef.startswith (F.getSourceText D.getLocation) "~" = true :=
      fun h2 => h fun _ => h2
    simp [h1, h2]
  · exact absurd (fun h2 => absurd h2 h1) h

theorem checkNestedNameSpecifierLoc_eq (F : Frontend) (NameLoc : NestedNameSpecifierLoc) :
    ∀ V : USRLocFindingASTVisitor,
      checkNestedNameSpecifierLoc F V NameLoc = V.append (qualifierLocations F V.USR NameLoc) := by
  induction NameLoc with
  | null => intro V; simp [checkNestedNameSpecifierLoc, qualifierLocations]
  | segment Decl Loc Pre ih =>
    intro V
    cases Decl with
    | none => simp [checkNestedNameSpecifierLoc, qualifierLocations, ih]
    | some D =>
      by_cases h : F.getUSRForDecl D = V.USR
      · simp [checkNestedNameSpecifierLoc, qualifierLocations, ih, h, push_back_eq_append]
      · simp [checkNestedNameSpecifierLoc, qualifierLocations, ih, h]

theorem VisitDeclRefExpr_eq (F : Frontend) (V : USRLocFindingASTVisitor) (E : DeclRefExpr) :
    VisitDeclRefExpr F V E =
      (true, V.append (qualifierLocations F V.USR E.getQualifierLoc ++
        declRefLocations F V.USR E)) := by
  unfold VisitDeclRefExpr declRefLocations
  simp only [checkNestedNameSpecifierLoc_eq, append_USR]
  by_cases h : F.getUSRForDecl E.getFoundDecl = V.USR <;> simp [h, push_back_eq_append]

theorem VisitMemberExpr_eq (F : Frontend) (V : USRLocFindingASTVisitor) (E : MemberExpr) :
    VisitMemberExpr F V E = (true, V.append (memberLocations F V.USR E)) := by
  by_cases h : F.getUSRForDecl E.getFoundDecl = V.USR <;>
    simp [VisitMemberExpr, memberLocations, h, push_back_eq_append]

theorem VisitCXXConstructExpr_eq (F : Frontend) (V : USRLocFindingASTVisitor)
    (E : CXXConstructExpr) :
    VisitCXXConstructExpr F V E = (true, V.append (constructExprLocations F V.USR E)) := by
  by_cases h : F.getUSRForDecl E.getConstructor = V.USR <;>
    simp [VisitCXXConstructExpr, constructExprLocations, h, push_back_eq_append]

theorem handleCXXNamedCastExpr_eq (F : Frontend) (V : USRLocFindingASTVisitor)
    (E : CXXNamedCastExpr) :
    handleCXXNamedCastExpr F V E = (true, V.append (namedCastLocations F V.USR E)) := by
  unfold handleCXXNamedCastExpr namedCastLocations castRecord
  cases E.getPointeeCXXRecordDecl with
  | some D =>
    by_cases h : F.getUSRForDecl D = V.USR <;> simp [h, push_back_eq_append]
  | none =>
    cases E.getAsCXXRecordDecl with
    | some D =>
      by_cases h : F.getUSRForDecl D = V.USR <;> simp [h, push_back_eq_append]
    | none => simp

/-! ## The traversal in closed form -/

theorem WalkUpFrom_eq (F : Frontend) (V : USRLocFindingASTVisitor) (k : NodeKind)
    (h : AssertionHolds F V.USR k) :
    WalkUpFrom F V k = .ok (true, V.append (locationsAt F V.USR V.PrevName k)) := by
  cases k with
  | other => simp [WalkUpFrom, locationsAt]
  | namedDecl D => simp [WalkUpFrom, locationsAt, VisitNamedDecl_eq]
  | varDecl D => simp [WalkUpFrom, locationsAt, VisitNamedDecl_eq, VisitVarDecl_eq, andThen]
  | cxxConstructorDecl D =>
    simp [WalkUpFrom, locationsAt, VisitNamedDecl_eq, VisitCXXConstructorDecl_eq, andThen]
  | cxxDestructorDecl D =>
    have h1 : AssertionHolds F (V.append (namedDeclLocations F V.USR D.toNamedDecl)).USR
        (.cxxDestructorDecl D) := h
    simp [WalkUpFrom, locationsAt, VisitNamedDecl_eq, VisitCXXDestructorDecl_eq _ _ _ h1, andThen]
  | declRefExpr E => simp [WalkUpFrom, locationsAt, VisitDeclRefExpr_eq]
  | memberExpr E => simp [WalkUpFrom, locationsAt, VisitMemberExpr_eq]
  | cxxConstructExpr E => simp [WalkUpFrom, locationsAt, VisitCXXConstructExpr_eq]
  | cxxStaticCastExpr E =>
    simp [WalkUpFrom, locationsAt, VisitCXXStaticCastExpr, handleCXXNamedCastExpr_eq]
  | cxxDynamicCastExpr E =>
    simp [WalkUpFrom, locationsAt, VisitCXXDynamicCastExpr, handleCXXNamedCastExpr_eq]
  | cxxReinterpretCastExpr E =>
    simp [WalkUpFrom, locationsAt, VisitCXXReinterpretCastExpr, handleCXXNamedCastExpr_eq]
  | cxxConstCastExpr E =>
    simp [WalkUpFrom, locationsAt, VisitCXXConstCastExpr, handleCXXNamedCastExpr_eq]

theorem WalkUpFrom_error (F : Frontend) (V : USRLocFindingASTVisitor) (k : NodeKind)
    (h : ¬ AssertionHolds F V.USR k) :
    WalkUpFrom F V k = .error destructorAssertion := by
  cases k with
  | cxxDestructorDecl D =>
    have h1 : ¬ AssertionHolds F (V.append (namedDeclLocations F V.USR D.toNamedDecl)).USR
        (.cxxDestructorDecl D) := h
    simp [WalkUpFrom, VisitNamedDecl_eq, VisitCXXDestructorDecl_error _ _ _ h1, andThen]
  | _ => exact absurd trivial h

theorem preorder_mk (k : NodeKind) (cs : List Node) :
    (Node.mk k cs).preorder = k :: Node.preorder.preorderOfChildren cs := by
  simp [Node.preorder]

theorem preorderOfChildren_nil : Node.preorder.preorderOfChildren [] = [] := by
  simp [Node.preorder.preorderOfChildren]

theorem preorderOfChildren_cons (c : Node) (cs : List Node) :
    Node.preorder.preorderOfChildren (c :: cs) =
      c.preorder ++ Node.preorder.preorderOfChildren cs := by
  simp [Node.preorder.preorderOfChildren]

mutual
theorem TraverseDecl_eq (F : Frontend) :
    ∀ (t : Node) (V : USRLocFindingASTVisitor),
      (∀ k ∈ t.preorder, AssertionHolds F V.USR k) →
      TraverseDecl F V t =
        .ok (true, V.append (t.preorder.flatMap (locationsAt F V.USR V.PrevName)))
  | .mk k cs, V, h => by
    rw [preorder_mk] at h
    have hk := h k (List.mem_cons_self _ _)
    have hcs : ∀ k1 ∈ Node.preorder.preorderOfChildren cs,
        AssertionHolds F (V.append (locationsAt F V.USR V.PrevName k)).USR k1 :=
      fun k1 hk1 => h k1 (List.mem_cons_of_mem _ hk1)
    rw [TraverseDecl, WalkUpFrom_eq F V k hk]
    simp only [TraverseChildren_eq F cs _ hcs, preorder_mk, List.flatMap_cons, append_USR,
      append_PrevName, append_append]
theorem TraverseChildren_eq (F : Frontend) :
    ∀ (cs : List Node) (V : USRLocFindingASTVisitor),
      (∀ k ∈ Node.preorder.preorderOfChildren cs, AssertionHolds F V.USR k) →
      TraverseChildren F V cs =
        .ok (true, V.append
          ((Node.preorder.preorderOfChildren cs).flatMap (locationsAt F V.USR V.PrevName)))
  | [], V, _ => by simp [TraverseChildren, preorderOfChildren_nil]
  | c :: cs, V, h => by
    rw [preorderOfChildren_cons] at h
    have hc : ∀ k ∈ c.preorder, AssertionHolds F V.USR k :=
      fun k hk => h k (List.mem_append_left _ hk)
    have hcs : ∀ k ∈ Node.preorder.preorderOfChildren cs,
        AssertionHolds F
          (V.append (c.preorder.flatMap (locationsAt F V.USR V.PrevName))).USR k :=
      fun k hk => h k (List.mem_append_right _ hk)
    rw [TraverseChildren, TraverseDecl_eq F c V hc]
    simp only [TraverseChildren_eq F cs _ hcs, preorderOfChildren_cons, List.flatMap_append,
      append_USR, append_PrevName, append_append]
end

mutual
theorem TraverseDecl_error (F : Frontend) :
    ∀ (t : Node) (V : USRLocFindingASTVisitor),
      (∃ k ∈ t.preorder, ¬ AssertionHolds F V.USR k) →
      TraverseDecl F V t = .error destructorAssertion
  | .mk k cs, V, h => by
    rw [preorder_mk] at h
    by_cases hk : AssertionHolds F V.USR k
    · have hcs : ∃ k1 ∈ Node.preorder.preorderOfChildren cs,
          ¬ AssertionHolds F (V.append (locationsAt F V.USR V.PrevName k)).USR k1 := by
        obtain ⟨k1, hk1, hn⟩ := h
        rcases List.mem_cons.mp hk1 with rfl | hin
        · exact absurd hk hn
        · exact ⟨k1, hin, hn⟩
      rw [TraverseDecl, WalkUpFrom_eq F V k hk]
      simp only [TraverseChildren_error F cs _ hcs]
    · rw [TraverseDecl, WalkUpFrom_error F V k hk]
theorem TraverseChildren_error (F : Frontend) :
    ∀ (cs : List Node) (V : USRLocFindingASTVisitor),
      (∃ k ∈ Node.preorder.preorderOfChildren cs, ¬ AssertionHolds F V.USR k) →
      TraverseChildren F V cs = .error destructorAssertion
  | [], V, h => by
    obtain ⟨k, hk, _⟩ := h
    simp [preorderOfChildren_nil] at hk
  | c :: cs, V, h => by
    rw [preorderOfChildren_cons] at h
    by_cases hc : ∀ k ∈ c.preorder, AssertionHolds F V.USR k
    · have hcs : ∃ k ∈ Node.preorder.preorderOfChildren cs,
          ¬ AssertionHolds F
            (V.append (c.preorder.flatMap (locationsAt F V.USR V.PrevName))).USR k := by
        obtain ⟨k, hk, hn⟩ := h
        rcases List.mem_append.mp hk with hin | hin
        · exact absurd (hc k hin) hn
        · exact ⟨k, hin, hn⟩
      rw [TraverseChildren, TraverseDecl_eq F c V hc]
      simp only [TraverseChildren_error F cs _ hcs]
    · have hc1 : ∃ k ∈ c.preorder, ¬ AssertionHolds F V.USR k := by
        by_contra hne
        exact hc fun k hk => by_contra fun hn => hne ⟨k, hk, hn⟩
      rw [TraverseChildren, TraverseDecl_error F c V hc1]
end

theorem getLocationsOfUSR_eq (F : Frontend) (USR PrevName : String) (t : Node)
    (h : ∀ k ∈ t.preorder, AssertionHolds F USR k) :
    getLocationsOfUSR F USR PrevName t = .ok (t.preorder.flatMap (locationsAt F USR PrevName)) := by
  unfold getLocationsOfUSR
  simp only []
  rw [TraverseDecl_eq F t _ h]
  simp [USRLocFindingASTVisitor.getLocationsFound]

theorem getLocationsOfUSR_error (F : Frontend) (USR PrevName : String) (t : Node)
    (h : ∃ k ∈ t.preorder, ¬ AssertionHolds F USR k) :
    getLocationsOfUSR F USR PrevName t = .error destructorAssertion := by
  unfold getLocationsOfUSR
  simp only []
  rw [TraverseDecl_error F t _ h]

/-- The test `Variable.cpp`, replayed: renaming `A::Foo` (offset 148) finds
the declaration on line 6 and the `Foo` of `A::Foo` on lines 10, 20 and 21. -/
theorem Variable_cpp_locations :
    getLocationsOfUSR Variable.frontend "c:@N@A@Foo" "Foo" Variable.tree =
      .ok [⟨148⟩, ⟨294⟩, ⟨617⟩, ⟨665⟩] := by
  rfl

/-! ## Lemmas on the locations of a node -/

theorem initializerLocations_eq_nil (F : Frontend) (USR PrevName : String)
    (inits : List CXXCtorInitializer) (h : ∀ I ∈ inits, ¬ initializesField F USR I) :
    initializerLocations F USR PrevName inits = [] := by
  unfold initializerLocations
  rw [List.map_eq_nil_iff, List.filter_eq_nil_iff]
  intro I hI hm
  exact h I hI (of_decide_eq_true hm).1

theorem qualifierLocations_eq_nil (F : Frontend) (USR : String) (Q : NestedNameSpecifierLoc)
    (h : USR ∉ qualifierNamespaces F Q) : qualifierLocations F USR Q = [] := by
  induction Q with
  | null => rfl
  | segment Decl Loc Pre ih =>
    cases Decl with
    | none => exact ih h
    | some D =>
      simp only [qualifierNamespaces, List.mem_cons, not_or] at h
      have h1 : ¬ F.getUSRForDecl D = USR := fun e => h.1 e.symm
      simp [qualifierLocations, ih h.2, h1]

theorem namedCastLocations_eq_nil (F : Frontend) (USR : String) (E : CXXNamedCastExpr)
    (h : USR ∉ ((castRecord E).map F.getUSRForDecl).toList) :
    namedCastLocations F USR E = [] := by
  unfold namedCastLocations
  cases hc : castRecord E with
  | none => rfl
  | some D =>
    rw [hc] at h
    simp only [Option.map_some', Option.toList_some, List.mem_singleton] at h
    have h1 : ¬ F.getUSRForDecl D = USR := fun e => h e.symm
    simp [h1]

theorem initializesField_consulted (F : Frontend) (USR : String) (D : CXXConstructorDecl)
    (I : CXXCtorInitializer) (hI : I ∈ D.inits) (h : initializesField F USR I) :
    USR ∈ consultedUSRs F (.cxxConstructorDecl D) := by
  simp only [consultedUSRs, List.mem_cons, List.mem_filterMap]
  exact Or.inr ⟨I, hI, by simp [h.1, h.2]⟩

theorem locationsAt_eq_nil (F : Frontend) (USR PrevName : String) (k : NodeKind)
    (h : USR ∉ consultedUSRs F k) : locationsAt F USR PrevName k = [] := by
  cases k with
  | other => rfl
  | namedDecl D =>
    simp only [consultedUSRs, List.mem_singleton] at h
    have h1 : ¬ F.getUSRForDecl D.self = USR := fun e => h e.symm
    simp [locationsAt, namedDeclLocations, h1]
  | varDecl D =>
    simp only [consultedUSRs, List.mem_cons, not_or] at h
    have h1 : ¬ F.getUSRForDecl D.self = USR := fun e => h.1 e.symm
    cases hp : D.getPointeeCXXRecordDecl with
    | none => simp [locationsAt, namedDeclLocations, varDeclLocations, h1, hp]
    | some R =>
      have h2 : ¬ F.getUSRForDecl R = USR := fun e => h.2 (by simp [hp, e])
      simp [locationsAt, namedDeclLocations, varDeclLocations, h1, hp, h2]
  | cxxConstructorDecl D =>
    have h1 : ¬ F.getUSRForDecl D.self = USR := fun e => h (by simp [consultedUSRs, e])
    have h2 : ∀ I ∈ D.inits, ¬ initializesField F USR I :=
      fun I hI hf => h (initializesField_consulted F USR D I hI hf)
    simp [locationsAt, namedDeclLocations, constructorLocations, h1,
      initializerLocations_eq_nil F USR PrevName D.inits h2]
  | cxxDestructorDecl D =>
    simp only [consultedUSRs, List.mem_cons, List.mem_singleton, not_or, List.not_mem_nil,
      or_false] at h
    have h1 : ¬ F.getUSRForDecl D.self = USR := fun e => h.1 e.symm
    have h2 : ¬ F.getUSRForDecl D.getParent = USR := fun e => h.2 e.symm
    simp [locationsAt, namedDeclLocations, destructorLocations, h1, h2]
  | declRefExpr E =>
    simp only [consultedUSRs, List.mem_cons, not_or] at h
    have h1 : ¬ F.getUSRForDecl E.getFoundDecl = USR := fun e => h.1 e.symm
    simp [locationsAt, declRefLocations, qualifierLocations_eq_nil F USR _ h.2, h1]
  | memberExpr E =>
    simp only [consultedUSRs, List.mem_singleton] at h
    have h1 : ¬ F.getUSRForDecl E.getFoundDecl = USR := fun e => h e.symm
    simp [locationsAt, memberLocations, h1]
  | cxxConstructExpr E =>
    simp only [consultedUSRs, List.mem_singleton] at h
    have h1 : ¬ F.getUSRForDecl E.getConstructor = USR := fun e => h e.symm
    simp [locationsAt, constructExprLocations, h1]
  | cxxStaticCastExpr E => exact namedCastLocations_eq_nil F USR E h
  | cxxDynamicCastExpr E => exact namedCastLocations_eq_nil F USR E h
  | cxxReinterpretCastExpr E => exact namedCastLocations_eq_nil F USR E h
  | cxxConstCastExpr E => exact namedCastLocations_eq_nil F USR E h

theorem assertionHolds_of_not_consulted (F : Frontend) (USR : String) (k : NodeKind)
    (h : USR ∉ consultedUSRs F k) : AssertionHolds F USR k := by
  cases k with
  | cxxDestructorDecl D =>
    intro e
    exact absurd (by simp [consultedUSRs, e]) h
  | _ => trivial

theorem locationsAt_namedDecl (F : Frontend) (USR PrevName : String) (k : NodeKind)
    (D : NamedDecl) (hk : k.asNamedDecl = some D) (hD : F.getUSRForDecl D.self = USR) :
    ∃ Rest, locationsAt F USR PrevName k = D.getLocation :: Rest := by
  cases k with
  | namedDecl D1 =>
    obtain rfl : D1 = D := by simpa [NodeKind.asNamedDecl] using hk
    exact ⟨[], by simp [locationsAt, namedDeclLocations, hD]⟩
  | varDecl D1 =>
    obtain rfl : D1.toNamedDecl = D := by simpa [NodeKind.asNamedDecl] using hk
    exact ⟨_, by
      simp only [locationsAt, namedDeclLocations, hD, if_true, List.singleton_append]; rfl⟩
  | cxxConstructorDecl D1 =>
    obtain rfl : D1.toNamedDecl = D := by simpa [NodeKind.asNamedDecl] using hk
    exact ⟨_, by
      simp only [locationsAt, namedDeclLocations, hD, if_true, List.singleton_append]; rfl⟩
  | cxxDestructorDecl D1 =>
    obtain rfl : D1.toNamedDecl = D := by simpa [NodeKind.asNamedDecl] using hk
    exact ⟨_, by
      simp only [locationsAt, namedDeclLocations, hD, if_true, List.singleton_append]; rfl⟩
  | other => simp [NodeKind.asNamedDecl] at hk
  | declRefExpr E => simp [NodeKind.asNamedDecl] at hk
  | memberExpr E => simp [NodeKind.asNamedDecl] at hk
  | cxxConstructExpr E => simp [NodeKind.asNamedDecl] at hk
  | cxxStaticCastExpr E => simp [NodeKind.asNamedDecl] at hk
  | cxxDynamicCastExpr E => simp [NodeKind.asNamedDecl] at hk
  | cxxReinterpretCastExpr E => simp [NodeKind.asNamedDecl] at hk
  | cxxConstCastExpr E => simp [NodeKind.asNamedDecl] at hk

theorem initializerMatches_iff (F : Frontend) (USR PrevName : String)
    (I : CXXCtorInitializer) :
    initializerMatches F USR PrevName I ↔
      (I.getSourceOrder ≠ -1 ∧
        (∃ Field, I.getAnyMember = some Field ∧ F.getUSRForDecl Field = USR) ∧
        F.getSourceText I.getSourceLocation = PrevName) := by
  simp only [initializerMatches, initializesField, Option.map_eq_some', and_assoc]

theorem mem_initializerLocations (F : Frontend) (USR PrevName : String)
    (inits : List CXXCtorInitializer) (L : SourceLocation)
    (h : L ∈ initializerLocations F USR PrevName inits) :
    ∃ I ∈ inits, initializesField F USR I ∧ I.getSourceLocation = L := by
  simp only [initializerLocations, List.mem_map, List.mem_filter, decide_eq_true_eq] at h
  obtain ⟨I, ⟨hI, hm⟩, hL⟩ := h
  exact ⟨I, hI, hm.1, hL⟩

theorem locationsAt_prevName (F : Frontend) (USR P1 P2 : String) (k : NodeKind)
    (h : ∀ I ∈ k.inits, ¬ initializesField F USR I) :
    locationsAt F USR P1 k = locationsAt F USR P2 k := by
  cases k with
  | cxxConstructorDecl D =>
    simp only [locationsAt, initializerLocations_eq_nil F USR _ D.inits h]
  | _ => rfl

theorem flatMap_locationsAt_prevName (F : Frontend) (USR P1 P2 : String) (Ks : List NodeKind)
    (h : ∀ k ∈ Ks, ∀ I ∈ k.inits, ¬ initializesField F USR I) :
    Ks.flatMap (locationsAt F USR P1) = Ks.flatMap (locationsAt F USR P2) := by
  induction Ks with
  | nil => rfl
  | cons k ks ih =>
    rw [List.flatMap_cons, List.flatMap_cons,
      locationsAt_prevName F USR P1 P2 k (h k (List.mem_cons_self _ _)),
      ih fun k1 hk1 => h k1 (List.mem_cons_of_mem _ hk1)]

theorem mem_locationsAt_prevName (F : Frontend) (USR P1 P2 : String) (k : NodeKind)
    (L : SourceLocation) (h : L ∈ locationsAt F USR P1 k) :
    L ∈ locationsAt F USR P2 k ∨
      ∃ I ∈ k.inits, initializesField F USR I ∧ I.getSourceLocation = L := by
  cases k with
  | cxxConstructorDecl D =>
    simp only [locationsAt, List.mem_append] at h ⊢
    rcases h with h | h | h
    · exact Or.inl (Or.inl h)
    · exact Or.inr (mem_initializerLocations F USR P1 D.inits L h)
    · exact Or.inl (Or.inr (Or.inr h))
  | _ => exact Or.inl h

theorem assertionHolds_iff (F : Frontend) (USR : String) (Ks : List NodeKind) :
    (∀ k ∈ Ks, AssertionHolds F USR k) ↔
      ∀ D, NodeKind.cxxDestructorDecl D ∈ Ks → F.getUSRForDecl D.getParent = USR →
        StringRef.startswith (F.getSourceText D.getLocation) "~" = true := by
  constructor
  · exact fun h D hD => h _ hD
  · intro h k hk
    cases k with
    | cxxDestructorDecl D => exact h D hk
    | _ => trivial

theorem finder_fails_only_by_assertion (F : Frontend) (USR PrevName : String) (t : Node) :
    ((∀ D, NodeKind.cxxDestructorDecl D ∈ t.preorder → F.getUSRForDecl D.getParent = USR →
        StringRef.startswith (F.getSourceText D.getLocation) "~" = true) →
      ∃ Ls, getLocationsOfUSR F USR PrevName t = .ok Ls) ∧
    ((∃ D, NodeKind.cxxDestructorDecl D ∈ t.preorder ∧ F.getUSRForDecl D.getParent = USR ∧
        StringRef.startswith (F.getSourceText D.getLocation) "~" = false) →
      getLocationsOfUSR F USR PrevName t = .error destructorAssertion) ∧
    (∀ (V : USRLocFindingASTVisitor) (k : NodeKind),
      (∀ D, k ≠ .cxxDestructorDecl D) → ∃ R, WalkUpFrom F V k = .ok R) ∧
    (∀ (V : USRLocFindingASTVisitor) (k : NodeKind), V.USR ∉ consultedUSRs F k →
      WalkUpFrom F V k = .ok (true, V)) := by
  refine ⟨fun h => ?_, fun h => ?_, fun V k hk => ?_, fun V k hk => ?_⟩
  · exact ⟨_, getLocationsOfUSR_eq F USR PrevName t
      ((assertionHolds_iff F USR t.preorder).mpr h)⟩
  · obtain ⟨D, hD, hU, hT⟩ := h
    exact getLocationsOfUSR_error F USR PrevName t
      ⟨_, hD, fun hA => by simp [hA hU] at hT⟩
  · refine ⟨_, WalkUpFrom_eq F V k ?_⟩
    cases k with
    | cxxDestructorDecl D => exact absurd rfl (hk D)
    | _ => trivial
  · rw [WalkUpFrom_eq F V k (assertionHolds_of_not_consulted F V.USR k hk),
      locationsAt_eq_nil F V.USR V.PrevName k hk, append_nil]

/-! ## The claims -/

/-- C1: matching is by USR only. If the target USR is none of the USRs that
the nodes of a tree have for the finder (named declarations, pointee records
of variables, fields of explicit constructor initializers, constructors,
owning classes of destructors, resolved declarations of name references and
member accesses, invoked constructors, records of named casts, namespaces of
qualifier segments), `getLocationsOfUSR` returns the empty sequence, for
every previous name. The spelling of a node is not even read. -/
theorem C1_no_USR_no_location (F : Frontend) (USR PrevName : String) (t : Node)
    (h : ∀ k ∈ t.preorder, USR ∉ consultedUSRs F k) :
    getLocationsOfUSR F USR PrevName t = .ok [] := by
  rw [getLocationsOfUSR_eq F USR PrevName t
    fun k hk => assertionHolds_of_not_consulted F USR k (h k hk)]
  congr 1
  rw [List.flatMap_eq_nil_iff]
  exact fun k hk => locationsAt_eq_nil F USR PrevName k (h k hk)

/-- C1 at the test: with the USR of `A::Foo`, the global `Foo`, the field
`Foo`, the local `Foo`, the `extern int Foo` and the uses of each yield no
location. -/
theorem C1_no_USR_no_location_witness :
    (∀ k ∈ Variable.otherFoos.preorder, "c:@N@A@Foo" ∉ consultedUSRs Variable.frontend k) ∧
      getLocationsOfUSR Variable.frontend "c:@N@A@Foo" "Foo" Variable.otherFoos = .ok [] :=
  ⟨by decide, C1_no_USR_no_location _ _ _ _ (by decide)⟩

/-- C2: a name reference whose resolved declaration has the target USR
appends, after the locations of its qualifier, exactly one location, the
spelling location of its own location, and in a tree whose destructor
assertions hold this location is in the result of `getLocationsOfUSR`; a
name reference whose resolved declaration has another USR appends nothing
for the reference itself. -/
theorem C2_name_reference (F : Frontend) (E : DeclRefExpr) :
    (∀ V : USRLocFindingASTVisitor, F.getUSRForDecl E.getFoundDecl = V.USR →
      VisitDeclRefExpr F V E =
        (true, (checkNestedNameSpecifierLoc F V E.getQualifierLoc).push_back
          (F.getSpellingLoc E.getLocation))) ∧
    (∀ V : USRLocFindingASTVisitor, F.getUSRForDecl E.getFoundDecl ≠ V.USR →
      VisitDeclRefExpr F V E = (true, checkNestedNameSpecifierLoc F V E.getQualifierLoc)) ∧
    (∀ (USR PrevName : String) (t : Node), NodeKind.declRefExpr E ∈ t.preorder →
      F.getUSRForDecl E.getFoundDecl = USR →
      (∀ k ∈ t.preorder, AssertionHolds F USR k) →
      ∃ Ls, getLocationsOfUSR F USR PrevName t = .ok Ls ∧
        F.getSpellingLoc E.getLocation ∈ Ls) := by
  refine ⟨fun V h => ?_, fun V h => ?_, fun USR PrevName t hE hU hA => ?_⟩
  · have h1 : F.getUSRForDecl E.getFoundDecl =
        (checkNestedNameSpecifierLoc F V E.getQualifierLoc).USR := by
      rw [checkNestedNameSpecifierLoc_eq]; exact h
    simp [VisitDeclRefExpr, h1]
  · have h1 : ¬ F.getUSRForDecl E.getFoundDecl =
        (checkNestedNameSpecifierLoc F V E.getQualifierLoc).USR := by
      rw [checkNestedNameSpecifierLoc_eq]; exact h
    simp [VisitDeclRefExpr, h1]
  · refine ⟨_, getLocationsOfUSR_eq F USR PrevName t hA, ?_⟩
    rw [List.mem_flatMap]
    exact ⟨_, hE, by simp [locationsAt, declRefLocations, hU]⟩

/-- C2 at the test: with the USR of `A::Foo`, the `Foo` of `A::Foo` on line
10 (offset 294) is appended by the handler and is in the result, and the
`Foo` of `Qux = Foo` on line 9 appends nothing. -/
theorem C2_name_reference_witness :
    VisitDeclRefExpr Variable.frontend ⟨"c:@N@A@Foo", "Foo", [⟨148⟩]⟩
        ⟨1, .segment (some 0) ⟨291⟩ .null, ⟨294⟩⟩ =
      (true, ⟨"c:@N@A@Foo", "Foo", [⟨148⟩, ⟨294⟩]⟩) ∧
    VisitDeclRefExpr Variable.frontend ⟨"c:@N@A@Foo", "Foo", [⟨148⟩]⟩ ⟨2, .null, ⟨242⟩⟩ =
      (true, ⟨"c:@N@A@Foo", "Foo", [⟨148⟩]⟩) ∧
    ∃ Ls, getLocationsOfUSR Variable.frontend "c:@N@A@Foo" "Foo" Variable.tree = .ok Ls ∧
      (⟨294⟩ : SourceLocation) ∈ Ls :=
  ⟨(C2_name_reference Variable.frontend ⟨1, .segment (some 0) ⟨291⟩ .null, ⟨294⟩⟩).1
      ⟨"c:@N@A@Foo", "Foo", [⟨148⟩]⟩ (by decide),
    (C2_name_reference Variable.frontend ⟨2, .null, ⟨242⟩⟩).2.1
      ⟨"c:@N@A@Foo", "Foo", [⟨148⟩]⟩ (by decide),
    (C2_name_reference Variable.frontend ⟨1, .segment (some 0) ⟨291⟩ .null, ⟨294⟩⟩).2.2
      "c:@N@A@Foo" "Foo" Variable.tree (by decide) (by decide) (by decide)⟩

/-- C3: `VisitNamedDecl` appends the name location of a named declaration
whose USR is the target and nothing for another USR; in a tree whose
destructor assertions hold, the name location of every named declaration
with the target USR is in the result, and of two such declarations the name
location of the one visited first stands before that of the other. -/
theorem C3_named_declaration (F : Frontend) (USR PrevName : String) :
    (∀ (V : USRLocFindingASTVisitor) (D : NamedDecl), F.getUSRForDecl D.self = V.USR →
      VisitNamedDecl F V D = (true, V.push_back D.getLocation)) ∧
    (∀ (V : USRLocFindingASTVisitor) (D : NamedDecl), F.getUSRForDecl D.self ≠ V.USR →
      VisitNamedDecl F V D = (true, V)) ∧
    (∀ (t : Node) (k : NodeKind) (D : NamedDecl),
      (∀ k1 ∈ t.preorder, AssertionHolds F USR k1) →
      k ∈ t.preorder → k.asNamedDecl = some D → F.getUSRForDecl D.self = USR →
      ∃ Ls, getLocationsOfUSR F USR PrevName t = .ok Ls ∧ D.getLocation ∈ Ls) ∧
    (∀ (t : Node) (k1 k2 : NodeKind) (D1 D2 : NamedDecl) (Before Between After : List NodeKind),
      (∀ k ∈ t.preorder, AssertionHolds F USR k) →
      t.preorder = Before ++ k1 :: Between ++ k2 :: After →
      k1.asNamedDecl = some D1 → F.getUSRForDecl D1.self = USR →
      k2.asNamedDecl = some D2 → F.getUSRForDecl D2.self = USR →
      ∃ As Bs Cs, getLocationsOfUSR F USR PrevName t =
        .ok (As ++ D1.getLocation :: Bs ++ D2.getLocation :: Cs)) := by
  refine ⟨fun V D h => by simp [VisitNamedDecl, h], fun V D h => by simp [VisitNamedDecl, h],
    fun t k D hA hk hD hU => ?_, fun t k1 k2 D1 D2 Before Between After hA hp h1 hU1 h2 hU2 => ?_⟩
  · refine ⟨_, getLocationsOfUSR_eq F USR PrevName t hA, ?_⟩
    obtain ⟨Rest, hR⟩ := locationsAt_namedDecl F USR PrevName k D hD hU
    rw [List.mem_flatMap]
    exact ⟨k, hk, by simp [hR]⟩
  · obtain ⟨R1, hR1⟩ := locationsAt_namedDecl F USR PrevName k1 D1 h1 hU1
    obtain ⟨R2, hR2⟩ := locationsAt_namedDecl F USR PrevName k2 D2 h2 hU2
    refine ⟨Before.flatMap (locationsAt F USR PrevName),
      R1 ++ Between.flatMap (locationsAt F USR PrevName),
      R2 ++ After.flatMap (locationsAt F USR PrevName), ?_⟩
    rw [getLocationsOfUSR_eq F USR PrevName t hA, hp]
    simp [List.flatMap_append, List.flatMap_cons, hR1, hR2]

/-- C3 at the test: with the USR of the global `Foo`, the declaration on
line 8 (offset 193) and the `extern` re-declaration on line 18 (offset 524)
are both found, in this order. -/
theorem C3_named_declaration_witness :
    ∃ As Bs Cs, getLocationsOfUSR Variable.frontend "c:@Foo" "Foo" Variable.redeclarations =
      .ok (As ++ (⟨193⟩ : SourceLocation) :: Bs ++ (⟨524⟩ : SourceLocation) :: Cs) :=
  (C3_named_declaration Variable.frontend "c:@Foo" "Foo").2.2.2 Variable.redeclarations
    (.varDecl ⟨⟨2, ⟨193⟩⟩, none, ⟨189⟩⟩) (.varDecl ⟨⟨10, ⟨524⟩⟩, none, ⟨520⟩⟩)
    ⟨2, ⟨193⟩⟩ ⟨10, ⟨524⟩⟩ [.other] [.other] []
    (by decide) (by decide) (by decide) (by decide) (by decide) (by decide)

/-- C4: a member access appends exactly one location, the spelling location
of its member-name location, when the accessed member has the target USR,
and nothing otherwise; no other handler runs on a member access, and the
spelling of the member is not read. -/
theorem C4_member_access (F : Frontend) (V : USRLocFindingASTVisitor) (E : MemberExpr) :
    WalkUpFrom F V (.memberExpr E) = .ok (VisitMemberExpr F V E) ∧
    (F.getUSRForDecl E.getFoundDecl = V.USR →
      VisitMemberExpr F V E = (true, V.push_back (F.getSpellingLoc E.getMemberLoc))) ∧
    (F.getUSRForDecl E.getFoundDecl ≠ V.USR → VisitMemberExpr F V E = (true, V)) :=
  ⟨rfl, fun h => by simp [VisitMemberExpr, h], fun h => by simp [VisitMemberExpr, h]⟩

/-- C4 at the test: with the USR of `A::Foo`, `b.Foo` on line 21 (offset
673) appends nothing; with the USR of the field it appends offset 673. -/
theorem C4_member_access_witness :
    VisitMemberExpr Variable.frontend ⟨"c:@N@A@Foo", "Foo", [⟨148⟩]⟩ ⟨7, ⟨673⟩⟩ =
      (true, ⟨"c:@N@A@Foo", "Foo", [⟨148⟩]⟩) ∧
    VisitMemberExpr Variable.frontend ⟨"c:Variable.cpp@F@fun#@Sa@FI@Foo", "Foo", [⟨361⟩]⟩
        ⟨7, ⟨673⟩⟩ =
      (true, ⟨"c:Variable.cpp@F@fun#@Sa@FI@Foo", "Foo", [⟨361⟩, ⟨673⟩]⟩) :=
  ⟨(C4_member_access Variable.frontend ⟨"c:@N@A@Foo", "Foo", [⟨148⟩]⟩ ⟨7, ⟨673⟩⟩).2.2
      (by decide),
    (C4_member_access Variable.frontend ⟨"c:Variable.cpp@F@fun#@Sa@FI@Foo", "Foo", [⟨361⟩]⟩
      ⟨7, ⟨673⟩⟩).2.1 (by decide)⟩

/-- C5, at a destructor defined inside its class (`InClass`, renaming the
class `Foo`): the owning class has the target USR and the destructor has
not, and the handler appends the location one past the `~` (offset 41) and
then the starting location of the definition, which is the name location of
the destructor, the position of the `~` itself (offset 40). -/
theorem C5_in_class_definition_emits_tilde :
    InClass.frontend.getUSRForDecl InClass.destructor.getParent = "c:@S@Foo" ∧
    InClass.frontend.getUSRForDecl InClass.destructor.self ≠ "c:@S@Foo" ∧
    InClass.frontend.getSourceText InClass.destructor.getLocation = "~" ∧
    WalkUpFrom InClass.frontend ⟨"c:@S@Foo", "Foo", []⟩ (.cxxDestructorDecl InClass.destructor) =
      .ok (true, ⟨"c:@S@Foo", "Foo",
        [InClass.destructor.getLocation.getLocWithOffset 1, InClass.destructor.getLocation]⟩) ∧
    getLocationsOfUSR InClass.frontend "c:@S@Foo" "Foo" InClass.tree =
      .ok [⟨7⟩, ⟨41⟩, InClass.destructor.getLocation] :=
  ⟨by decide, by decide, by decide, rfl, rfl⟩

/-- C6: when the owning class of a destructor has the target USR (and the
assertion of the handler holds: the token at the destructor's location
starts with `~`), the destructor handler appends the name location advanced
by one character and then, exactly when the declaration is a definition, its
starting location; when the owning class has another USR it appends
nothing. -/
theorem C6_destructor_rule (F : Frontend) (V : USRLocFindingASTVisitor)
    (D : CXXDestructorDecl) :
    (F.getUSRForDecl D.getParent = V.USR →
      StringRef.startswith (F.getSourceText D.getLocation) "~" = true →
      D.isThisDeclarationADefinition = true →
      VisitCXXDestructorDecl F V D =
        .ok (true, (V.push_back (D.getLocation.getLocWithOffset 1)).push_back D.getLocStart)) ∧
    (F.getUSRForDecl D.getParent = V.USR →
      StringRef.startswith (F.getSourceText D.getLocation) "~" = true →
      D.isThisDeclarationADefinition = false →
      VisitCXXDestructorDecl F V D =
        .ok (true, V.push_back (D.getLocation.getLocWithOffset 1))) ∧
    (F.getUSRForDecl D.getParent ≠ V.USR → VisitCXXDestructorDecl F V D = .ok (true, V)) ∧
    (D.getLocation.getLocWithOffset 1).ID = D.getLocation.ID + 1 :=
  ⟨fun h1 h2 h3 => by simp [VisitCXXDestructorDecl, h1, h2, h3],
    fun h1 h2 h3 => by simp [VisitCXXDestructorDecl, h1, h2, h3],
    fun h1 => by simp [VisitCXXDestructorDecl, h1], rfl⟩

/-- C6 at `OutOfLine`, renaming the class: the definition `Foo::~Foo() {}`
appends offsets 51 and 45, the declaration `~Foo();` appends offset 21, and
with another target neither appends anything. -/
theorem C6_destructor_rule_witness :
    VisitCXXDestructorDecl OutOfLine.frontend ⟨"c:@S@Foo", "Foo", [⟨7⟩]⟩
        OutOfLine.destructorDefinition = .ok (true, ⟨"c:@S@Foo", "Foo", [⟨7⟩, ⟨51⟩, ⟨45⟩]⟩) ∧
    VisitCXXDestructorDecl OutOfLine.frontend ⟨"c:@S@Foo", "Foo", [⟨7⟩]⟩
        OutOfLine.destructorDeclaration = .ok (true, ⟨"c:@S@Foo", "Foo", [⟨7⟩, ⟨21⟩]⟩) ∧
    VisitCXXDestructorDecl OutOfLine.frontend ⟨"c:@S@Bar", "Bar", []⟩
        OutOfLine.destructorDefinition = .ok (true, ⟨"c:@S@Bar", "Bar", []⟩) :=
  ⟨(C6_destructor_rule OutOfLine.frontend ⟨"c:@S@Foo", "Foo", [⟨7⟩]⟩
      OutOfLine.destructorDefinition).1 (by decide) (by decide) (by decide),
    (C6_destructor_rule OutOfLine.frontend ⟨"c:@S@Foo", "Foo", [⟨7⟩]⟩
      OutOfLine.destructorDeclaration).2.1 (by decide) (by decide) (by decide),
    (C6_destructor_rule OutOfLine.frontend ⟨"c:@S@Bar", "Bar", []⟩
      OutOfLine.destructorDefinition).2.2.1 (by decide)⟩

/-- C7 fails as stated: the constructor definition `Foo::Foo() {}` of
`OutOfLine`, with the USR of the constructor as target and no initializer,
yields two locations, its name location (offset 36) and its starting
location (offset 31), not the starting location alone. -/
theorem C7_constructor_counterexample :
    OutOfLine.frontend.getUSRForDecl OutOfLine.constructorDefinition.self = "c:@S@Foo@F@Foo#" ∧
    OutOfLine.constructorDefinition.inits = [] ∧
    getLocationsOfUSR OutOfLine.frontend "c:@S@Foo@F@Foo#" "Foo"
        (.mk (.cxxConstructorDecl OutOfLine.constructorDefinition) []) =
      .ok [⟨36⟩, OutOfLine.constructorDefinition.getLocStart] ∧
    getLocationsOfUSR OutOfLine.frontend "c:@S@Foo@F@Foo#" "Foo"
        (.mk (.cxxConstructorDecl OutOfLine.constructorDefinition) []) ≠
      .ok [OutOfLine.constructorDefinition.getLocStart] :=
  ⟨by decide, rfl, rfl, fun h => by
    have h1 : getLocationsOfUSR OutOfLine.frontend "c:@S@Foo@F@Foo#" "Foo"
        (.mk (.cxxConstructorDecl OutOfLine.constructorDefinition) []) =
          .ok [⟨36⟩, OutOfLine.constructorDefinition.getLocStart] := rfl
    rw [h1] at h
    simp at h⟩

/-- C7, amended: a constructor declaration whose USR is the target, none of
whose member initializers matches and whose starting location is not its
name location (a definition outside the class, `Class::Class`) yields
exactly two locations, one from each handler that runs on it: its name
location from `VisitNamedDecl`, then its starting location from
`VisitCXXConstructorDecl`; the two are distinct. -/
theorem C7_constructor_two_locations (F : Frontend) (V : USRLocFindingASTVisitor)
    (D : CXXConstructorDecl) (hU : F.getUSRForDecl D.self = V.USR)
    (hI : ∀ I ∈ D.inits, ¬ initializerMatches F V.USR V.PrevName I)
    (hL : D.getLocStart ≠ D.getLocation) :
    VisitNamedDecl F V D.toNamedDecl = (true, V.push_back D.getLocation) ∧
    VisitCXXConstructorDecl F (V.push_back D.getLocation) D =
      (true, (V.push_back D.getLocation).push_back D.getLocStart) ∧
    WalkUpFrom F V (.cxxConstructorDecl D) =
      .ok (true, (V.push_back D.getLocation).push_back D.getLocStart) ∧
    [D.getLocation, D.getLocStart].Nodup ∧
    getLocationsOfUSR F V.USR V.PrevName (.mk (.cxxConstructorDecl D) []) =
      .ok [D.getLocation, D.getLocStart] := by
  have hN : initializerLocations F V.USR V.PrevName D.inits = [] := by
    unfold initializerLocations
    rw [List.map_eq_nil_iff, List.filter_eq_nil_iff]
    exact fun I hmem hm => hI I hmem (of_decide_eq_true hm)
  have h1 : VisitNamedDecl F V D.toNamedDecl = (true, V.push_back D.getLocation) := by
    simp [VisitNamedDecl, hU]
  have h2 : VisitCXXConstructorDecl F (V.push_back D.getLocation) D =
      (true, (V.push_back D.getLocation).push_back D.getLocStart) := by
    rw [VisitCXXConstructorDecl_eq]
    simp [push_back_eq_append, hN, constructorLocations, hU]
  refine ⟨h1, h2, ?_, ?_, ?_⟩
  · simp [WalkUpFrom, andThen, h1, h2]
  · simpa using Ne.symm hL
  · rw [getLocationsOfUSR_eq F V.USR V.PrevName _ (by
      intro k hk
      rw [preorder_mk, preorderOfChildren_nil, List.mem_singleton] at hk
      subst hk
      trivial)]
    simp [preorder_mk, preorderOfChildren_nil, locationsAt, namedDeclLocations,
      constructorLocations, hU, hN]

/-- C7 amended, at `OutOfLine`: the definition `Foo::Foo() {}` yields its
name location and its starting location. -/
theorem C7_constructor_two_locations_witness :
    getLocationsOfUSR OutOfLine.frontend "c:@S@Foo@F@Foo#" "Foo"
        (.mk (.cxxConstructorDecl OutOfLine.constructorDefinition) []) = .ok [⟨36⟩, ⟨31⟩] :=
  (C7_constructor_two_locations OutOfLine.frontend ⟨"c:@S@Foo@F@Foo#", "Foo", []⟩
    OutOfLine.constructorDefinition (by decide) (by decide) (by decide)).2.2.2.2

/-- C8: one turn of the loop over the member initializers appends the
source location of the initializer, once, exactly when the initializer is
explicit (source order not -1), initializes a field (`getAnyMember` not
null) whose USR is the target, and the token at its source location is the
previous name; otherwise it leaves the visitor as it was. The whole handler
appends the source locations of the matching initializers, each once and in
their order, before the location of the constructor rule, and has no error
branch. -/
theorem C8_member_initializer (F : Frontend) (V : USRLocFindingASTVisitor) :
    (∀ I : CXXCtorInitializer,
      I.getSourceOrder ≠ -1 ∧
        (∃ Field, I.getAnyMember = some Field ∧ F.getUSRForDecl Field = V.USR) ∧
        F.getSourceText I.getSourceLocation = V.PrevName →
      VisitCXXConstructorDecl.initializer F V I = V.push_back I.getSourceLocation) ∧
    (∀ I : CXXCtorInitializer,
      ¬ (I.getSourceOrder ≠ -1 ∧
        (∃ Field, I.getAnyMember = some Field ∧ F.getUSRForDecl Field = V.USR) ∧
        F.getSourceText I.getSourceLocation = V.PrevName) →
      VisitCXXConstructorDecl.initializer F V I = V) ∧
    (∀ I : CXXCtorInitializer,
      initializerMatches F V.USR V.PrevName I ↔
        (I.getSourceOrder ≠ -1 ∧
          (∃ Field, I.getAnyMember = some Field ∧ F.getUSRForDecl Field = V.USR) ∧
          F.getSourceText I.getSourceLocation = V.PrevName)) ∧
    (∀ D : CXXConstructorDecl,
      VisitCXXConstructorDecl F V D =
        (true, { V with LocationsFound := V.LocationsFound ++
          ((D.inits.filter fun I => decide (initializerMatches F V.USR V.PrevName I)).map
            fun I => I.getSourceLocation) ++
          (if F.getUSRForDecl D.self = V.USR then [D.getLocStart] else []) })) := by
  refine ⟨fun I h => ?_, fun I h => ?_, fun I => initializerMatches_iff F V.USR V.PrevName I,
    fun D => ?_⟩
  · have hm : decide (initializerMatches F V.USR V.PrevName I) = true :=
      decide_eq_true ((initializerMatches_iff F V.USR V.PrevName I).mpr h)
    rw [initializer_eq, push_back_eq_append]
    simp [initializerLocations, hm]
  · have hm : decide (initializerMatches F V.USR V.PrevName I) = false :=
      decide_eq_false fun hm => h ((initializerMatches_iff F V.USR V.PrevName I).mp hm)
    rw [initializer_eq]
    simp [initializerLocations, hm]
  · rw [VisitCXXConstructorDecl_eq]
    simp [USRLocFindingASTVisitor.append, initializerLocations, constructorLocations]

/-- C8 at `InClass`, renaming the field `Bar`: the initializer `Bar(0)`
appends its location (offset 30) when the previous name is `Bar`, and
nothing when the previous name is `Baz`. -/
theorem C8_member_initializer_witness :
    VisitCXXConstructorDecl.initializer InClass.frontend ⟨"c:@S@Foo@FI@Bar", "Bar", [⟨17⟩]⟩
        InClass.initBar = ⟨"c:@S@Foo@FI@Bar", "Bar", [⟨17⟩, ⟨30⟩]⟩ ∧
    VisitCXXConstructorDecl.initializer InClass.frontend ⟨"c:@S@Foo@FI@Bar", "Baz", [⟨17⟩]⟩
        InClass.initBar = ⟨"c:@S@Foo@FI@Bar", "Baz", [⟨17⟩]⟩ :=
  ⟨(C8_member_initializer InClass.frontend ⟨"c:@S@Foo@FI@Bar", "Bar", [⟨17⟩]⟩).1
      InClass.initBar ⟨by decide, ⟨1, rfl, by decide⟩, by decide⟩,
    (C8_member_initializer InClass.frontend ⟨"c:@S@Foo@FI@Bar", "Baz", [⟨17⟩]⟩).2.1
      InClass.initBar fun h => absurd h.2.2 (by decide)⟩

/-- C9: the previous name is read by the constructor-initializer rule only.
If no constructor in the tree has an explicit initializer of a field with
the target USR, the result of `getLocationsOfUSR` is the same for any two
previous names. In general, when the finder returns a sequence for one
previous name it returns one for any other, and every location of the first
is in the second or is the source location of such an initializer. -/
theorem C9_previous_name (F : Frontend) (USR P1 P2 : String) (t : Node) :
    ((∀ k ∈ t.preorder, ∀ I ∈ k.inits, ¬ initializesField F USR I) →
      getLocationsOfUSR F USR P1 t = getLocationsOfUSR F USR P2 t) ∧
    (∀ Ls1, getLocationsOfUSR F USR P1 t = .ok Ls1 →
      ∃ Ls2, getLocationsOfUSR F USR P2 t = .ok Ls2 ∧
        ∀ L ∈ Ls1, L ∈ Ls2 ∨
          ∃ k ∈ t.preorder, ∃ I ∈ k.inits,
            initializesField F USR I ∧ I.getSourceLocation = L) := by
  by_cases hA : ∀ k ∈ t.preorder, AssertionHolds F USR k
  · rw [getLocationsOfUSR_eq F USR P1 t hA, getLocationsOfUSR_eq F USR P2 t hA]
    constructor
    · intro h
      rw [flatMap_locationsAt_prevName F USR P1 P2 t.preorder h]
    · intro Ls1 h1
      refine ⟨_, rfl, fun L hL => ?_⟩
      obtain rfl : t.preorder.flatMap (locationsAt F USR P1) = Ls1 := by
        injection h1
      obtain ⟨k, hk, hLk⟩ := List.mem_flatMap.mp hL
      rcases mem_locationsAt_prevName F USR P1 P2 k L hLk with h | h
      · exact Or.inl (List.mem_flatMap.mpr ⟨k, hk, h⟩)
      · exact Or.inr ⟨k, hk, h⟩
  · have hE : ∃ k ∈ t.preorder, ¬ AssertionHolds F USR k := by
      by_contra hne
      exact hA fun k hk => by_contra fun hn => hne ⟨k, hk, hn⟩
    rw [getLocationsOfUSR_error F USR P1 t hE, getLocationsOfUSR_error F USR P2 t hE]
    exact ⟨fun _ => rfl, fun Ls1 h1 => by cases h1⟩

/-- C9 at `InClass`: renaming the class `Foo`, whose USR no initialized
field has, the previous names `Foo` and `Bar` give the same result. -/
theorem C9_previous_name_witness :
    (∀ k ∈ InClass.tree.preorder, ∀ I ∈ k.inits,
      ¬ initializesField InClass.frontend "c:@S@Foo" I) ∧
    getLocationsOfUSR InClass.frontend "c:@S@Foo" "Foo" InClass.tree =
      getLocationsOfUSR InClass.frontend "c:@S@Foo" "Bar" InClass.tree :=
  ⟨by decide, (C9_previous_name InClass.frontend "c:@S@Foo" "Foo" "Bar" InClass.tree).1
    (by decide)⟩

/-- C10, at `Macro`: the finder has a failure outcome. The owning class of
the destructor has the target USR, the text of the token at the destructor's
location (a `~` out of the body of a macro) does not start with `~`, and the
assertion of `VisitCXXDestructorDecl`, an error branch here, is taken: the
handler, the handlers of the node and `getLocationsOfUSR` all fail. -/
theorem C10_macro_destructor_assertion_fails :
    Macro.frontend.getUSRForDecl 0 = "c:@S@Foo" ∧
    StringRef.startswith (Macro.frontend.getSourceText ⟨13⟩) "~" = false ∧
    VisitCXXDestructorDecl Macro.frontend ⟨"c:@S@Foo", "Foo", [⟨7⟩]⟩
        ⟨⟨1, ⟨13⟩⟩, 0, false, ⟨13⟩⟩ = .error (.failed "TokenName.startswith(\"~\")") ∧
    WalkUpFrom Macro.frontend ⟨"c:@S@Foo", "Foo", [⟨7⟩]⟩
        (.cxxDestructorDecl ⟨⟨1, ⟨13⟩⟩, 0, false, ⟨13⟩⟩) =
      .error (.failed "TokenName.startswith(\"~\")") ∧
    getLocationsOfUSR Macro.frontend "c:@S@Foo" "Foo" Macro.tree =
      .error (.failed "TokenName.startswith(\"~\")") :=
  ⟨by decide, by decide, rfl, rfl, rfl⟩

/-! ## Lemmas on contributions, subtrees and results -/

theorem contributions_eq (F : Frontend) (USR PrevName : String) (k : NodeKind)
    (h : AssertionHolds F USR k) :
    contributions F USR PrevName k = locationsAt F USR PrevName k := by
  unfold contributions
  rw [WalkUpFrom_eq F { USR := USR, PrevName := PrevName, LocationsFound := [] } k h]
  simp

theorem flatMap_contributions (F : Frontend) (USR PrevName : String) (Ks : List NodeKind)
    (h : ∀ k ∈ Ks, AssertionHolds F USR k) :
    Ks.flatMap (contributions F USR PrevName) = Ks.flatMap (locationsAt F USR PrevName) := by
  induction Ks with
  | nil => rfl
  | cons k ks ih =>
    rw [List.flatMap_cons, List.flatMap_cons,
      contributions_eq F USR PrevName k (h k (List.mem_cons_self _ _)),
      ih fun k1 hk1 => h k1 (List.mem_cons_of_mem _ hk1)]

theorem getLocationsOfUSR_contributions (F : Frontend) (USR PrevName : String) (t : Node)
    (h : ∀ k ∈ t.preorder, AssertionHolds F USR k) :
    getLocationsOfUSR F USR PrevName t =
      .ok (t.preorder.flatMap (contributions F USR PrevName)) := by
  rw [getLocationsOfUSR_eq F USR PrevName t h, flatMap_contributions F USR PrevName _ h]

theorem preorderOfChildren_append (As Bs : List Node) :
    Node.preorder.preorderOfChildren (As ++ Bs) =
      Node.preorder.preorderOfChildren As ++ Node.preorder.preorderOfChildren Bs := by
  induction As with
  | nil => simp [preorderOfChildren_nil]
  | cons a as ih => simp [preorderOfChildren_cons, ih]

theorem subtree_preorder (s t : Node) (h : Node.Subtree s t) :
    ∃ X Y, t.preorder = X ++ s.preorder ++ Y := by
  induction h with
  | refl => exact ⟨[], [], by simp⟩
  | under c kind children hc _ ih =>
    obtain ⟨X, Y, hXY⟩ := ih
    obtain ⟨before, after, rfl⟩ := List.append_of_mem hc
    refine ⟨kind :: (Node.preorder.preorderOfChildren before ++ X),
      Y ++ Node.preorder.preorderOfChildren after, ?_⟩
    rw [preorder_mk, preorderOfChildren_append, preorderOfChildren_cons, hXY]
    simp

theorem WalkUpFrom_ok (F : Frontend) (V : USRLocFindingASTVisitor) (k : NodeKind)
    (R : Bool × USRLocFindingASTVisitor) (h : WalkUpFrom F V k = .ok R) :
    AssertionHolds F V.USR k ∧ R = (true, V.append (locationsAt F V.USR V.PrevName k)) := by
  by_cases hA : AssertionHolds F V.USR k
  · rw [WalkUpFrom_eq F V k hA] at h
    injection h with h
    exact ⟨hA, h.symm⟩
  · rw [WalkUpFrom_error F V k hA] at h
    cases h

theorem TraverseDecl_ok (F : Frontend) (V : USRLocFindingASTVisitor) (t : Node)
    (R : Bool × USRLocFindingASTVisitor) (h : TraverseDecl F V t = .ok R) :
    (∀ k ∈ t.preorder, AssertionHolds F V.USR k) ∧
      R = (true, V.append (t.preorder.flatMap (locationsAt F V.USR V.PrevName))) := by
  by_cases hA : ∀ k ∈ t.preorder, AssertionHolds F V.USR k
  · rw [TraverseDecl_eq F t V hA] at h
    injection h with h
    exact ⟨hA, h.symm⟩
  · have hE : ∃ k ∈ t.preorder, ¬ AssertionHolds F V.USR k := by
      by_contra hne
      exact hA fun k hk => by_contra fun hn => hne ⟨k, hk, hn⟩
    rw [TraverseDecl_error F t V hE] at h
    cases h

theorem extends_append (V : USRLocFindingASTVisitor) (Ls : List SourceLocation) :
    Extends V (V.append Ls) :=
  ⟨rfl, rfl, List.prefix_append _ _⟩

theorem qualifierLocations_segments (F : Frontend) (USR : String) (Q : NestedNameSpecifierLoc) :
    qualifierLocations F USR Q =
      (Q.segments.filter (segmentMatches F USR)).map fun S => S.2 := by
  induction Q with
  | null => rfl
  | segment Decl Loc Pre ih =>
    cases Decl with
    | none =>
      simp [qualifierLocations, NestedNameSpecifierLoc.segments, segmentMatches, ih]
    | some D =>
      by_cases h : F.getUSRForDecl D = USR <;>
        simp [qualifierLocations, NestedNameSpecifierLoc.segments, segmentMatches, ih, h]

/-! ## The claims, continued -/

/-- C11: in a tree whose destructor assertions hold, the result of
`getLocationsOfUSR` is the concatenation, in pre-order, of what the handlers
of each node contribute. Nothing is merged or dropped: the length of the
result is the sum of the numbers of contributions and every location occurs
as often as it was contributed. The locations of a subtree form a contiguous
block of the result, equal to the result of traversing the subtree alone. -/
theorem C11_concatenation (F : Frontend) (USR PrevName : String) (t : Node)
    (hA : ∀ k ∈ t.preorder, AssertionHolds F USR k) :
    ∃ Ls, getLocationsOfUSR F USR PrevName t = .ok Ls ∧
      Ls = t.preorder.flatMap (contributions F USR PrevName) ∧
      Ls.length = (t.preorder.map fun k => (contributions F USR PrevName k).length).sum ∧
      (∀ L, Ls.count L =
        (t.preorder.map fun k => (contributions F USR PrevName k).count L).sum) ∧
      (∀ s, Node.Subtree s t →
        ∃ Block Before After, getLocationsOfUSR F USR PrevName s = .ok Block ∧
          Ls = Before ++ Block ++ After) := by
  refine ⟨_, getLocationsOfUSR_contributions F USR PrevName t hA, rfl, ?_, fun L => ?_,
    fun s hs => ?_⟩
  · rw [List.length_flatMap]; rfl
  · rw [List.count_flatMap]; rfl
  · obtain ⟨X, Y, hXY⟩ := subtree_preorder s t hs
    have hS : ∀ k ∈ s.preorder, AssertionHolds F USR k := fun k hk =>
      hA k (by rw [hXY]; simp [hk])
    refine ⟨_, X.flatMap (contributions F USR PrevName),
      Y.flatMap (contributions F USR PrevName),
      getLocationsOfUSR_contributions F USR PrevName s hS, ?_⟩
    rw [hXY, List.flatMap_append, List.flatMap_append]

/-- C11 at `InClass`, renaming the constructor, which is declared where it
starts: its name location and its starting location are the same offset 22,
and the result holds it twice. -/
theorem C11_concatenation_witness :
    (∀ k ∈ InClass.tree.preorder, AssertionHolds InClass.frontend "c:@S@Foo@F@Foo#" k) ∧
    ∃ Ls, getLocationsOfUSR InClass.frontend "c:@S@Foo@F@Foo#" "Foo" InClass.tree = .ok Ls ∧
      Ls = [⟨22⟩, ⟨22⟩] ∧ Ls.count ⟨22⟩ = 2 := by
  refine ⟨by decide, ?_⟩
  obtain ⟨Ls, h1, h2, _⟩ :=
    C11_concatenation InClass.frontend "c:@S@Foo@F@Foo#" "Foo" InClass.tree (by decide)
  have h3 : Ls = [⟨22⟩, ⟨22⟩] := h2.trans (by rfl)
  exact ⟨Ls, h1, h3, by rw [h3]; decide⟩

/-- C12: on a variable declaration whose own USR is not the target, the
handlers append exactly one location, the start of the type specifier, when
the type is a pointer or reference to a record with the target USR, and
nothing when the type has no pointee record or the pointee record has
another USR; the name location of the variable is not what is appended. -/
theorem C12_variable_rule (F : Frontend) (V : USRLocFindingASTVisitor) (D : VarDecl)
    (hOwn : F.getUSRForDecl D.self ≠ V.USR) :
    (∀ R, D.getPointeeCXXRecordDecl = some R → F.getUSRForDecl R = V.USR →
      VisitVarDecl F V D = (true, V.push_back D.getTypeSpecStartLoc) ∧
      WalkUpFrom F V (.varDecl D) = .ok (true, V.push_back D.getTypeSpecStartLoc)) ∧
    (∀ R, D.getPointeeCXXRecordDecl = some R → F.getUSRForDecl R ≠ V.USR →
      VisitVarDecl F V D = (true, V) ∧ WalkUpFrom F V (.varDecl D) = .ok (true, V)) ∧
    (D.getPointeeCXXRecordDecl = none →
      VisitVarDecl F V D = (true, V) ∧ WalkUpFrom F V (.varDecl D) = .ok (true, V)) := by
  have hN : VisitNamedDecl F V D.toNamedDecl = (true, V) := by simp [VisitNamedDecl, hOwn]
  refine ⟨fun R hR hU => ?_, fun R hR hU => ?_, fun hR => ?_⟩
  · have h : VisitVarDecl F V D = (true, V.push_back D.getTypeSpecStartLoc) := by
      simp [VisitVarDecl, hR, hU]
    exact ⟨h, by simp [WalkUpFrom, andThen, hN, h]⟩
  · have h : VisitVarDecl F V D = (true, V) := by simp [VisitVarDecl, hR, hU]
    exact ⟨h, by simp [WalkUpFrom, andThen, hN, h]⟩
  · have h : VisitVarDecl F V D = (true, V) := by simp [VisitVarDecl, hR]
    exact ⟨h, by simp [WalkUpFrom, andThen, hN, h]⟩

/-- C12 at `Casts`, renaming the class `Foo`: the declaration `Foo *P`
appends the offset of its type (23), not that of its name (28); a variable
of type `int` appends nothing. -/
theorem C12_variable_rule_witness :
    WalkUpFrom Casts.frontend ⟨"c:@S@Foo", "Foo", [⟨7⟩]⟩ (.varDecl Casts.varP) =
      .ok (true, ⟨"c:@S@Foo", "Foo", [⟨7⟩, ⟨23⟩]⟩) ∧
    WalkUpFrom Casts.frontend ⟨"c:@S@Foo", "Foo", [⟨7⟩]⟩
        (.varDecl ⟨⟨3, ⟨48⟩⟩, none, ⟨43⟩⟩) = .ok (true, ⟨"c:@S@Foo", "Foo", [⟨7⟩]⟩) :=
  ⟨((C12_variable_rule Casts.frontend ⟨"c:@S@Foo", "Foo", [⟨7⟩]⟩ Casts.varP (by decide)).1
      0 rfl (by decide)).2,
    ((C12_variable_rule Casts.frontend ⟨"c:@S@Foo", "Foo", [⟨7⟩]⟩
      ⟨⟨3, ⟨48⟩⟩, none, ⟨43⟩⟩ (by decide)).2.2 rfl).2⟩

/-- C13: a named cast is matched on the pointee record of its type if there
is one and else on the record the type denotes. It appends exactly one
location, the begin of the type as written, exactly when that record exists
and has the target USR; when there is a pointee record, the record the type
denotes makes no difference. The four cast handlers are this one function,
and no other handler runs on a cast. -/
theorem C13_named_cast (F : Frontend) (V : USRLocFindingASTVisitor) (E : CXXNamedCastExpr) :
    (∀ D, E.getPointeeCXXRecordDecl = some D → F.getUSRForDecl D = V.USR →
      handleCXXNamedCastExpr F V E = (true, V.push_back E.getTypeBeginLoc)) ∧
    (∀ D, E.getPointeeCXXRecordDecl = some D → F.getUSRForDecl D ≠ V.USR →
      handleCXXNamedCastExpr F V E = (true, V)) ∧
    (∀ D, E.getPointeeCXXRecordDecl = none → E.getAsCXXRecordDecl = some D →
      F.getUSRForDecl D = V.USR →
      handleCXXNamedCastExpr F V E = (true, V.push_back E.getTypeBeginLoc)) ∧
    (∀ D, E.getPointeeCXXRecordDecl = none → E.getAsCXXRecordDecl = some D →
      F.getUSRForDecl D ≠ V.USR → handleCXXNamedCastExpr F V E = (true, V)) ∧
    (E.getPointeeCXXRecordDecl = none → E.getAsCXXRecordDecl = none →
      handleCXXNamedCastExpr F V E = (true, V)) ∧
    (VisitCXXStaticCastExpr F V E = handleCXXNamedCastExpr F V E ∧
      VisitCXXDynamicCastExpr F V E = handleCXXNamedCastExpr F V E ∧
      VisitCXXReinterpretCastExpr F V E = handleCXXNamedCastExpr F V E ∧
      VisitCXXConstCastExpr F V E = handleCXXNamedCastExpr F V E) ∧
    (WalkUpFrom F V (.cxxStaticCastExpr E) = .ok (handleCXXNamedCastExpr F V E) ∧
      WalkUpFrom F V (.cxxDynamicCastExpr E) = .ok (handleCXXNamedCastExpr F V E) ∧
      WalkUpFrom F V (.cxxReinterpretCastExpr E) = .ok (handleCXXNamedCastExpr F V E) ∧
      WalkUpFrom F V (.cxxConstCastExpr E) = .ok (handleCXXNamedCastExpr F V E)) :=
  ⟨fun D h1 h2 => by simp [handleCXXNamedCastExpr, h1, h2],
    fun D h1 h2 => by simp [handleCXXNamedCastExpr, h1, h2],
    fun D h1 h2 h3 => by simp [handleCXXNamedCastExpr, h1, h2, h3],
    fun D h1 h2 h3 => by simp [handleCXXNamedCastExpr, h1, h2, h3],
    fun h1 h2 => by simp [handleCXXNamedCastExpr, h1, h2],
    ⟨rfl, rfl, rfl, rfl⟩, ⟨rfl, rfl, rfl, rfl⟩⟩

/-- C13 at `Casts`, renaming the class `Foo`: `static_cast<Foo *>(P)`
appends the offset of the written type (64); a cast whose pointee record is
another declaration appends nothing, whatever record its type denotes. -/
theorem C13_named_cast_witness :
    handleCXXNamedCastExpr Casts.frontend ⟨"c:@S@Foo", "Foo", [⟨7⟩]⟩ Casts.cast =
      (true, ⟨"c:@S@Foo", "Foo", [⟨7⟩, ⟨64⟩]⟩) ∧
    handleCXXNamedCastExpr Casts.frontend ⟨"c:@S@Foo", "Foo", [⟨7⟩]⟩ ⟨some 2, some 0, ⟨64⟩⟩ =
      (true, ⟨"c:@S@Foo", "Foo", [⟨7⟩]⟩) ∧
    handleCXXNamedCastExpr Casts.frontend ⟨"c:@S@Foo", "Foo", [⟨7⟩]⟩ ⟨none, some 0, ⟨64⟩⟩ =
      (true, ⟨"c:@S@Foo", "Foo", [⟨7⟩, ⟨64⟩]⟩) :=
  ⟨(C13_named_cast Casts.frontend ⟨"c:@S@Foo", "Foo", [⟨7⟩]⟩ Casts.cast).1 0 rfl (by decide),
    (C13_named_cast Casts.frontend ⟨"c:@S@Foo", "Foo", [⟨7⟩]⟩ ⟨some 2, some 0, ⟨64⟩⟩).2.1
      2 rfl (by decide),
    (C13_named_cast Casts.frontend ⟨"c:@S@Foo", "Foo", [⟨7⟩]⟩ ⟨none, some 0, ⟨64⟩⟩).2.2.1
      0 rfl rfl (by decide)⟩

/-- C14: `checkNestedNameSpecifierLoc` examines every segment of a qualifier
once, however long the chain: a segment that denotes a namespace with the
target USR appends its local begin location, once, and any other segment
appends nothing, so the locations appended are those of the matching
segments of the chain; `VisitDeclRefExpr` runs it on the qualifier of every
name reference before anything else. -/
theorem C14_qualifier_segments (F : Frontend) (V : USRLocFindingASTVisitor) :
    (∀ D Loc Pre, F.getUSRForDecl D = V.USR →
      checkNestedNameSpecifierLoc F V (.segment (some D) Loc Pre) =
        checkNestedNameSpecifierLoc F (V.push_back Loc) Pre) ∧
    (∀ D Loc Pre, F.getUSRForDecl D ≠ V.USR →
      checkNestedNameSpecifierLoc F V (.segment (some D) Loc Pre) =
        checkNestedNameSpecifierLoc F V Pre) ∧
    (∀ Loc Pre, checkNestedNameSpecifierLoc F V (.segment none Loc Pre) =
      checkNestedNameSpecifierLoc F V Pre) ∧
    checkNestedNameSpecifierLoc F V .null = V ∧
    (∀ Q : NestedNameSpecifierLoc, checkNestedNameSpecifierLoc F V Q =
      { V with LocationsFound := V.LocationsFound ++
        (Q.segments.filter (segmentMatches F V.USR)).map fun S => S.2 }) ∧
    (∀ E : DeclRefExpr, ∃ Own, VisitDeclRefExpr F V E =
      (true, { V with LocationsFound := V.LocationsFound ++
        ((E.getQualifierLoc.segments.filter (segmentMatches F V.USR)).map fun S => S.2) ++
          Own })) := by
  refine ⟨fun D Loc Pre h => by simp [checkNestedNameSpecifierLoc, h],
    fun D Loc Pre h => by simp [checkNestedNameSpecifierLoc, h],
    fun Loc Pre => by simp [checkNestedNameSpecifierLoc],
    by simp [checkNestedNameSpecifierLoc], fun Q => ?_, fun E => ?_⟩
  · rw [checkNestedNameSpecifierLoc_eq, qualifierLocations_segments]
    rfl
  · refine ⟨declRefLocations F V.USR E, ?_⟩
    rw [VisitDeclRefExpr_eq, qualifierLocations_segments]
    simp [USRLocFindingASTVisitor.append]

/-- C14 at `Nested`: renaming `A`, the qualifier `A::B::` appends the offset
of `A` (47) and nothing for `B`; renaming `B` it appends the offset of `B`
(50) and nothing for `A`. -/
theorem C14_qualifier_segments_witness :
    checkNestedNameSpecifierLoc Nested.frontend ⟨"c:@N@A", "A", [⟨10⟩]⟩ Nested.qualifier =
      ⟨"c:@N@A", "A", [⟨10⟩, ⟨47⟩]⟩ ∧
    checkNestedNameSpecifierLoc Nested.frontend ⟨"c:@N@A@N@B", "B", [⟨24⟩]⟩ Nested.qualifier =
      ⟨"c:@N@A@N@B", "B", [⟨24⟩, ⟨50⟩]⟩ :=
  ⟨((C14_qualifier_segments Nested.frontend ⟨"c:@N@A", "A", [⟨10⟩]⟩).2.1 1 ⟨50⟩
      (.segment (some 0) ⟨47⟩ .null) (by decide)).trans
      ((C14_qualifier_segments Nested.frontend ⟨"c:@N@A", "A", [⟨10⟩]⟩).1 0 ⟨47⟩ .null
        (by decide)),
    ((C14_qualifier_segments Nested.frontend ⟨"c:@N@A@N@B", "B", [⟨24⟩]⟩).1 1 ⟨50⟩
      (.segment (some 0) ⟨47⟩ .null) (by decide)).trans
      ((C14_qualifier_segments Nested.frontend ⟨"c:@N@A@N@B", "B", [⟨24⟩, ⟨50⟩]⟩).2.1 0 ⟨47⟩
        .null (by decide))⟩

/-- C15: a constructor call appends exactly one location, its own location,
when the invoked constructor has the target USR, and nothing otherwise; no
other handler runs on a constructor call. -/
theorem C15_constructor_call (F : Frontend) (V : USRLocFindingASTVisitor)
    (E : CXXConstructExpr) :
    WalkUpFrom F V (.cxxConstructExpr E) = .ok (VisitCXXConstructExpr F V E) ∧
    (F.getUSRForDecl E.getConstructor = V.USR →
      VisitCXXConstructExpr F V E = (true, V.push_back E.getLocation)) ∧
    (F.getUSRForDecl E.getConstructor ≠ V.USR → VisitCXXConstructExpr F V E = (true, V)) :=
  ⟨rfl, fun h => by simp [VisitCXXConstructExpr, h],
    fun h => by simp [VisitCXXConstructExpr, h]⟩

/-- C15 at `Casts`: renaming the constructor of `Foo`, `new Foo()` appends
its location (offset 36); renaming the class it appends nothing. -/
theorem C15_constructor_call_witness :
    VisitCXXConstructExpr Casts.frontend ⟨"c:@S@Foo@F@Foo#", "Foo", [⟨13⟩]⟩ Casts.newFoo =
      (true, ⟨"c:@S@Foo@F@Foo#", "Foo", [⟨13⟩, ⟨36⟩]⟩) ∧
    VisitCXXConstructExpr Casts.frontend ⟨"c:@S@Foo", "Foo", [⟨7⟩]⟩ Casts.newFoo =
      (true, ⟨"c:@S@Foo", "Foo", [⟨7⟩]⟩) :=
  ⟨(C15_constructor_call Casts.frontend ⟨"c:@S@Foo@F@Foo#", "Foo", [⟨13⟩]⟩ Casts.newFoo).2.1
      (by decide),
    (C15_constructor_call Casts.frontend ⟨"c:@S@Foo", "Foo", [⟨7⟩]⟩ Casts.newFoo).2.2
      (by decide)⟩

/-- C16 fails as stated: for `A::B::x` with both namespaces of the target
USR (`Nested.sameUSR`), the location of the inner segment `B` (offset 50) is
appended before that of the outer segment `A` (offset 47). -/
theorem C16_order_counterexample :
    Nested.sameUSR.getUSRForDecl 0 = "c:@N" ∧ Nested.sameUSR.getUSRForDecl 1 = "c:@N" ∧
    checkNestedNameSpecifierLoc Nested.sameUSR ⟨"c:@N", "A", []⟩ Nested.qualifier =
      ⟨"c:@N", "A", [⟨50⟩, ⟨47⟩]⟩ ∧
    (checkNestedNameSpecifierLoc Nested.sameUSR ⟨"c:@N", "A", []⟩
      Nested.qualifier).LocationsFound ≠ [⟨47⟩, ⟨50⟩] ∧
    getLocationsOfUSR Nested.sameUSR "c:@N" "A"
      (.mk (.declRefExpr Nested.reference) []) = .ok [⟨50⟩, ⟨47⟩] :=
  ⟨by decide, by decide, rfl, by decide, rfl⟩

/-- C16, amended: the qualifier chain of a name reference is walked from the
innermost segment outwards. For `A::B::x` in which both `A` and `B` are
namespaces with the target USR, the location of the inner segment `B` is
appended before that of the outer segment `A`; in general the location of a
matching segment stands before the locations of the matching segments of its
prefix. -/
theorem C16_inner_to_outer (F : Frontend) (V : USRLocFindingASTVisitor) :
    (∀ (A B : DeclPtr) (LA LB : SourceLocation) (Pre : NestedNameSpecifierLoc),
      F.getUSRForDecl A = V.USR → F.getUSRForDecl B = V.USR →
      checkNestedNameSpecifierLoc F V (.segment (some B) LB (.segment (some A) LA Pre)) =
        checkNestedNameSpecifierLoc F ((V.push_back LB).push_back LA) Pre) ∧
    (∀ (B : DeclPtr) (LB : SourceLocation) (Pre : NestedNameSpecifierLoc),
      F.getUSRForDecl B = V.USR →
      (checkNestedNameSpecifierLoc F V (.segment (some B) LB Pre)).LocationsFound =
        V.LocationsFound ++
          LB :: (Pre.segments.filter (segmentMatches F V.USR)).map fun S => S.2) := by
  refine ⟨fun A B LA LB Pre hA hB => ?_, fun B LB Pre hB => ?_⟩
  · have hA1 : F.getUSRForDecl A = (V.push_back LB).USR := hA
    simp only [checkNestedNameSpecifierLoc, hB, hA1, if_true]
  · rw [checkNestedNameSpecifierLoc_eq, qualifierLocations_segments]
    simp [NestedNameSpecifierLoc.segments, segmentMatches, hB]

/-- C16 amended, at `Nested.sameUSR`: the qualifier `A::B::` appends the
offset of `B` (50) and then that of `A` (47). -/
theorem C16_inner_to_outer_witness :
    checkNestedNameSpecifierLoc Nested.sameUSR ⟨"c:@N", "A", []⟩ Nested.qualifier =
      ⟨"c:@N", "A", [⟨50⟩, ⟨47⟩]⟩ :=
  (C16_inner_to_outer Nested.sameUSR ⟨"c:@N", "A", []⟩).1 0 1 ⟨47⟩ ⟨50⟩ .null
    (by decide) (by decide)

/-- C17: no handler returns `false`. Every handler without an assertion
returns `true` at every node; the destructor handler returns `true` whenever
it returns, and it returns when its assertion holds. So neither the handlers
of a node nor the traversal of a tree ever end with `false`, and in a tree
whose destructor assertions hold the contribution of every node, whether a
node before it matched or not, is in the result. -/
theorem C17_handlers_return_true (F : Frontend) (V : USRLocFindingASTVisitor) :
    (∀ D, (VisitNamedDecl F V D).1 = true) ∧
    (∀ D, (VisitVarDecl F V D).1 = true) ∧
    (∀ D, (VisitCXXConstructorDecl F V D).1 = true) ∧
    (∀ D R, VisitCXXDestructorDecl F V D = .ok R → R.1 = true) ∧
    (∀ D, AssertionHolds F V.USR (.cxxDestructorDecl D) →
      ∃ V1, VisitCXXDestructorDecl F V D = .ok (true, V1)) ∧
    (∀ E, (VisitDeclRefExpr F V E).1 = true) ∧
    (∀ E, (VisitMemberExpr F V E).1 = true) ∧
    (∀ E, (VisitCXXConstructExpr F V E).1 = true) ∧
    (∀ E, (VisitCXXStaticCastExpr F V E).1 = true ∧ (VisitCXXDynamicCastExpr F V E).1 = true ∧
      (VisitCXXReinterpretCastExpr F V E).1 = true ∧ (VisitCXXConstCastExpr F V E).1 = true ∧
      (handleCXXNamedCastExpr F V E).1 = true) ∧
    (∀ k R, WalkUpFrom F V k = .ok R → R.1 = true) ∧
    (∀ t R, TraverseDecl F V t = .ok R → R.1 = true) ∧
    (∀ t, (∀ k ∈ t.preorder, AssertionHolds F V.USR k) →
      ∃ Ls, getLocationsOfUSR F V.USR V.PrevName t = .ok Ls ∧
        ∀ k ∈ t.preorder, ∀ L ∈ contributions F V.USR V.PrevName k, L ∈ Ls) := by
  refine ⟨fun D => by rw [VisitNamedDecl_eq], fun D => by rw [VisitVarDecl_eq],
    fun D => by rw [VisitCXXConstructorDecl_eq], fun D R h => ?_, fun D h => ?_,
    fun E => by rw [VisitDeclRefExpr_eq], fun E => by rw [VisitMemberExpr_eq],
    fun E => by rw [VisitCXXConstructExpr_eq], fun E => ?_, fun k R h => ?_, fun t R h => ?_,
    fun t hA => ?_⟩
  · by_cases hA : AssertionHolds F V.USR (.cxxDestructorDecl D)
    · rw [VisitCXXDestructorDecl_eq F V D hA] at h
      injection h with h
      rw [← h]
    · rw [VisitCXXDestructorDecl_error F V D hA] at h
      cases h
  · exact ⟨_, VisitCXXDestructorDecl_eq F V D h⟩
  · simp only [VisitCXXStaticCastExpr, VisitCXXDynamicCastExpr, VisitCXXReinterpretCastExpr,
      VisitCXXConstCastExpr, handleCXXNamedCastExpr_eq, and_self]
  · rw [(WalkUpFrom_ok F V k R h).2]
  · rw [(TraverseDecl_ok F V t R h).2]
  · refine ⟨_, getLocationsOfUSR_contributions F V.USR V.PrevName t hA, fun k hk L hL => ?_⟩
    exact List.mem_flatMap.mpr ⟨k, hk, hL⟩

/-- C17 at the test `Variable.cpp`, renaming `A::Foo`: whatever a node
contributes is in the result, after matching and non-matching nodes alike. -/
theorem C17_handlers_return_true_witness :
    (∀ k ∈ Variable.tree.preorder, AssertionHolds Variable.frontend "c:@N@A@Foo" k) ∧
    ∃ Ls, getLocationsOfUSR Variable.frontend "c:@N@A@Foo" "Foo" Variable.tree = .ok Ls ∧
      ∀ k ∈ Variable.tree.preorder,
        ∀ L ∈ contributions Variable.frontend "c:@N@A@Foo" "Foo" k, L ∈ Ls :=
  ⟨by decide, (C17_handlers_return_true Variable.frontend ⟨"c:@N@A@Foo", "Foo", []⟩).2.2.2.2.2.2.2.2.2.2.2
    Variable.tree (by decide)⟩

/-- C18: the accumulator is append-only. `getLocationsOfUSR` starts the
traversal with the empty accumulator and returns the accumulator the
traversal ends with. Every handler, every turn of the loop over the
initializers, the walk along a qualifier, the handlers of a node together
and the traversal of a tree leave a visitor with the same target USR, the
same previous name, and an accumulator of which the one they started from is
a prefix. -/
theorem C18_append_only (F : Frontend) (V : USRLocFindingASTVisitor) :
    (∀ USR PrevName t R,
      TraverseDecl F { USR := USR, PrevName := PrevName, LocationsFound := [] } t = .ok R →
      getLocationsOfUSR F USR PrevName t = .ok R.2.LocationsFound) ∧
    (∀ D, Extends V (VisitNamedDecl F V D).2) ∧
    (∀ D, Extends V (VisitVarDecl F V D).2) ∧
    (∀ I, Extends V (VisitCXXConstructorDecl.initializer F V I)) ∧
    (∀ D, Extends V (VisitCXXConstructorDecl F V D).2) ∧
    (∀ D R, VisitCXXDestructorDecl F V D = .ok R → Extends V R.2) ∧
    (∀ Q, Extends V (checkNestedNameSpecifierLoc F V Q)) ∧
    (∀ E, Extends V (VisitDeclRefExpr F V E).2) ∧
    (∀ E, Extends V (VisitMemberExpr F V E).2) ∧
    (∀ E, Extends V (VisitCXXConstructExpr F V E).2) ∧
    (∀ E, Extends V (handleCXXNamedCastExpr F V E).2 ∧
      Extends V (VisitCXXStaticCastExpr F V E).2 ∧ Extends V (VisitCXXDynamicCastExpr F V E).2 ∧
      Extends V (VisitCXXReinterpretCastExpr F V E).2 ∧
      Extends V (VisitCXXConstCastExpr F V E).2) ∧
    (∀ k R, WalkUpFrom F V k = .ok R → Extends V R.2) ∧
    (∀ t R, TraverseDecl F V t = .ok R → Extends V R.2) := by
  refine ⟨fun USR PrevName t R h => ?_, fun D => ?_, fun D => ?_, fun I => ?_, fun D => ?_,
    fun D R h => ?_, fun Q => ?_, fun E => ?_, fun E => ?_, fun E => ?_, fun E => ?_,
    fun k R h => ?_, fun t R h => ?_⟩
  · unfold getLocationsOfUSR
    simp only [h]
    rfl
  · rw [VisitNamedDecl_eq]; exact extends_append _ _
  · rw [VisitVarDecl_eq]; exact extends_append _ _
  · rw [initializer_eq]; exact extends_append _ _
  · rw [VisitCXXConstructorDecl_eq]; exact extends_append _ _
  · by_cases hA : AssertionHolds F V.USR (.cxxDestructorDecl D)
    · rw [VisitCXXDestructorDecl_eq F V D hA] at h
      injection h with h
      rw [← h]
      exact extends_append _ _
    · rw [VisitCXXDestructorDecl_error F V D hA] at h
      cases h
  · rw [checkNestedNameSpecifierLoc_eq]; exact extends_append _ _
  · rw [VisitDeclRefExpr_eq]; exact extends_append _ _
  · rw [VisitMemberExpr_eq]; exact extends_append _ _
  · rw [VisitCXXConstructExpr_eq]; exact extends_append _ _
  · simp only [VisitCXXStaticCastExpr, VisitCXXDynamicCastExpr, VisitCXXReinterpretCastExpr,
      VisitCXXConstCastExpr, handleCXXNamedCastExpr_eq, and_self]
    exact extends_append _ _
  · rw [(WalkUpFrom_ok F V k R h).2]; exact extends_append _ _
  · rw [(TraverseDecl_ok F V t R h).2]; exact extends_append _ _

/-- C18 at `OutOfLine`, renaming the class: the handlers of the destructor
definition, started with the accumulator `[7, 21]`, end with
`[7, 21, 51, 45]`, the same USR and the same previous name. -/
theorem C18_append_only_witness :
    WalkUpFrom OutOfLine.frontend ⟨"c:@S@Foo", "Foo", [⟨7⟩, ⟨21⟩]⟩
        (.cxxDestructorDecl OutOfLine.destructorDefinition) =
      .ok (true, ⟨"c:@S@Foo", "Foo", [⟨7⟩, ⟨21⟩, ⟨51⟩, ⟨45⟩]⟩) ∧
    Extends ⟨"c:@S@Foo", "Foo", [⟨7⟩, ⟨21⟩]⟩ ⟨"c:@S@Foo", "Foo", [⟨7⟩, ⟨21⟩, ⟨51⟩, ⟨45⟩]⟩ :=
  ⟨rfl, (C18_append_only OutOfLine.frontend ⟨"c:@S@Foo", "Foo", [⟨7⟩, ⟨21⟩]⟩).2.2.2.2.2.2.2.2.2.2.2.1
    (.cxxDestructorDecl OutOfLine.destructorDefinition)
    (true, ⟨"c:@S@Foo", "Foo", [⟨7⟩, ⟨21⟩, ⟨51⟩, ⟨45⟩]⟩) rfl⟩

/-- C19: for a destructor definition whose owning class has the target USR
and whose starting location is not after its name location, the two
locations the destructor handler appends, the name location advanced by one
and the starting location, are distinct. -/
theorem C19_destructor_locations_distinct (F : Frontend) (V : USRLocFindingASTVisitor)
    (D : CXXDestructorDecl) (hU : F.getUSRForDecl D.getParent = V.USR)
    (hDef : D.isThisDeclarationADefinition = true)
    (hLe : D.getLocStart.ID ≤ D.getLocation.ID) :
    D.getLocation.getLocWithOffset 1 ≠ D.getLocStart ∧
    [D.getLocation.getLocWithOffset 1, D.getLocStart].Nodup ∧
    (StringRef.startswith (F.getSourceText D.getLocation) "~" = true →
      VisitCXXDestructorDecl F V D =
        .ok (true, { V with LocationsFound := V.LocationsFound ++
          [D.getLocation.getLocWithOffset 1, D.getLocStart] })) := by
  have hne : D.getLocation.getLocWithOffset 1 ≠ D.getLocStart := by
    intro h
    have h1 : D.getLocation.ID + 1 = D.getLocStart.ID := congrArg SourceLocation.ID h
    omega
  refine ⟨hne, by simpa using hne, fun hT => ?_⟩
  rw [VisitCXXDestructorDecl_eq F V D fun _ => hT]
  simp [destructorLocations, hU, hDef, USRLocFindingASTVisitor.append]

/-- C19 at `OutOfLine` and `InClass`, renaming the class: the definition
`Foo::~Foo() {}` appends offsets 51 and 45, and the definition `~Foo() {}`
inside the class appends offsets 41 and 40; in both the two differ. -/
theorem C19_destructor_locations_distinct_witness :
    VisitCXXDestructorDecl OutOfLine.frontend ⟨"c:@S@Foo", "Foo", []⟩
        OutOfLine.destructorDefinition = .ok (true, ⟨"c:@S@Foo", "Foo", [⟨51⟩, ⟨45⟩]⟩) ∧
    InClass.destructor.getLocation.getLocWithOffset 1 ≠ InClass.destructor.getLocStart :=
  ⟨(C19_destructor_locations_distinct OutOfLine.frontend ⟨"c:@S@Foo", "Foo", []⟩
      OutOfLine.destructorDefinition (by decide) rfl (by decide)).2.2 (by decide),
    (C19_destructor_locations_distinct InClass.frontend ⟨"c:@S@Foo", "Foo", []⟩
      InClass.destructor (by decide) rfl (by decide)).1⟩

end rename
end clang
